import Mathlib

/-! Verification of the LAMMPS-dump record parser, step index and
trajectory layer.

This development gives a shallow embedding of the self-describing record
format described in the specification (spec.md) of this repository: the
per-step text schema of LAMMPS dump files, the random-access step index and
the trajectory orchestration with an optional topology override.

The concrete parser sources are not part of the available excerpt (only the
reference tests under `tests/` are), so the parsing layer is modelled from
the specification, checked against the observable values asserted by
`tests/formats/lammps-atom.cpp` and `tests/trajectory.cpp`.

The input is modelled at token granularity: a file is a list of lines, each
line a list of whitespace-separated tokens (strings).  Numeric tokens are
parsed by an executable decimal/scientific lexer over `ℚ`.
-/

namespace Chemfiles

/- Restore kernel reducibility of the basic rational operations so that the
model can be evaluated on concrete inputs by `decide`. -/
attribute [local semireducible] Rat.add Rat.mul Rat.inv Rat.sub

/-- One line of a dump file, already split on whitespace. -/
abbrev Line := List String

/-- A 3-vector of rationals (positions, velocities, fractional coordinates). -/
abbrev Vec3 := ℚ × ℚ × ℚ

/-! ## Numeric token lexer -/

/-- Value of a decimal digit character, if it is one. -/
def digitVal (c : Char) : Option ℕ :=
  if c.isDigit then some (c.toNat - 48) else none

/-- Accumulate decimal digits (most significant first) into a natural number;
fails on any non-digit. -/
def digitsAcc : List Char → ℕ → Option ℕ
  | [], acc => some acc
  | c :: cs, acc =>
    match digitVal c with
    | some d => digitsAcc cs (acc * 10 + d)
    | none => none

/-- Parse a non-empty all-digit token as a natural number. -/
def parseNatTok (s : String) : Option ℕ :=
  match s.toList with
  | [] => none
  | cs => if cs.all Char.isDigit then digitsAcc cs 0 else none

/-- Split a leading sign off a character list; returns (negative?, rest). -/
def consumeSign : List Char → Bool × List Char
  | '-' :: cs => (true, cs)
  | '+' :: cs => (false, cs)
  | cs => (false, cs)

/-- Scale a rational by a signed power of ten (the exponent of scientific
notation). -/
def scaleByExp (v : ℚ) (neg : Bool) (e : ℕ) : ℚ :=
  if neg then v / 10 ^ e else v * 10 ^ e

/-- Parse a decimal token `[+|-]digits[.digits][ (e|E) [+|-]digits ]` as an
exact rational.  This is the numeric lexer used for every value field of the
format. -/
def parseRatTok (s : String) : Option ℚ :=
  let (neg, cs1) := consumeSign s.toList
  let ip := cs1.takeWhile Char.isDigit
  let r1 := cs1.dropWhile Char.isDigit
  if ip.isEmpty then none else
  match digitsAcc ip 0 with
  | none => none
  | some iv =>
    let fp := match r1 with
      | '.' :: rest => rest.takeWhile Char.isDigit
      | _ => []
    let r2 := match r1 with
      | '.' :: rest => rest.dropWhile Char.isDigit
      | _ => r1
    match digitsAcc fp 0 with
    | none => none
    | some fv =>
      let base : ℚ := (iv : ℚ) + (fv : ℚ) / 10 ^ fp.length
      let signed := if neg then -base else base
      match r2 with
      | [] => some signed
      | e :: rest =>
        if e = 'e' ∨ e = 'E' then
          let (eneg, cs2) := consumeSign rest
          let ed := cs2.takeWhile Char.isDigit
          let r3 := cs2.dropWhile Char.isDigit
          if ed.isEmpty ∨ ¬ r3.isEmpty then none
          else
            match digitsAcc ed 0 with
            | none => none
            | some ev => some (scaleByExp signed eneg ev)
        else none

/-- Parse a (possibly signed) integer token. -/
def parseIntTok (s : String) : Option ℤ :=
  let (neg, cs) := consumeSign s.toList
  match cs with
  | [] => none
  | _ =>
    if cs.all Char.isDigit then
      (digitsAcc cs 0).map (fun n => if neg then -(n : ℤ) else (n : ℤ))
    else none

/-! ## Data model (spec §3) -/

/-- Modelled from the spec (§3, §4.1): the unit cell held in its matrix
representation, columns being the cell vectors `a = (lx,0,0)`,
`b = (xy,ly,0)`, `c = (xz,yz,lz)`.  The LAMMPS box reconstruction stores the
three raw axis lengths as diagonal entries and the three tilt factors as the
off-diagonal entries; lengths are the raw `hi - lo` bound differences, which
is the computation that reproduces the closed-form example of spec §8 (P6)
and the values asserted by the reference tests (the additional bound
adjustment sketched in spec §4.2 contradicts both and is not applied). -/
structure UnitCell where
  lx : ℚ
  ly : ℚ
  lz : ℚ
  xy : ℚ
  xz : ℚ
  yz : ℚ
deriving DecidableEq, Repr

/-- Cell shape classification (spec §3): NONE / ORTHORHOMBIC / TRICLINIC. -/
inductive CellShape
  | Infinite
  | Orthorhombic
  | Triclinic
deriving DecidableEq, Repr

/-- Modelled from the spec (§3): shape is NONE iff lengths are `(0,0,0)`;
ORTHORHOMBIC iff all tilt factors are zero; otherwise TRICLINIC. -/
def UnitCell.shape (c : UnitCell) : CellShape :=
  if c.xy = 0 ∧ c.xz = 0 ∧ c.yz = 0 then
    if c.lx = 0 ∧ c.ly = 0 ∧ c.lz = 0 then CellShape.Infinite
    else CellShape.Orthorhombic
  else CellShape.Triclinic

/-- Convert fractional (scaled) coordinates to Cartesian by the cell matrix:
`s.1 • a + s.2.1 • b + s.2.2 • c`. -/
def UnitCell.fracToCart (c : UnitCell) (s : Vec3) : Vec3 :=
  (c.lx * s.1 + c.xy * s.2.1 + c.xz * s.2.2,
   c.ly * s.2.1 + c.yz * s.2.2,
   c.lz * s.2.2)

/-- The image-index unwrap contribution `i.1 • a + i.2.1 • b + i.2.2 • c`
(identical linear map as `fracToCart`, applied to integer image counts). -/
def UnitCell.imageShift (c : UnitCell) (i : Vec3) : Vec3 :=
  c.fracToCart i

/-- Euclidean norm of a real 3-vector. -/
noncomputable def vnorm (v : ℝ × ℝ × ℝ) : ℝ :=
  Real.sqrt (v.1 ^ 2 + v.2.1 ^ 2 + v.2.2 ^ 2)

/-- Dot product of real 3-vectors. -/
def vdot (u v : ℝ × ℝ × ℝ) : ℝ :=
  u.1 * v.1 + u.2.1 * v.2.1 + u.2.2 * v.2.2

/-- The real cell vector `a` of a cell. -/
def UnitCell.vecA (c : UnitCell) : ℝ × ℝ × ℝ := ((c.lx : ℝ), 0, 0)

/-- The real cell vector `b` of a cell. -/
def UnitCell.vecB (c : UnitCell) : ℝ × ℝ × ℝ := ((c.xy : ℝ), (c.ly : ℝ), 0)

/-- The real cell vector `c` of a cell. -/
def UnitCell.vecC (c : UnitCell) : ℝ × ℝ × ℝ :=
  ((c.xz : ℝ), (c.yz : ℝ), (c.lz : ℝ))

/-- Canonical lengths `(‖a‖, ‖b‖, ‖c‖)` of the cell (spec §3). -/
noncomputable def UnitCell.lengths (c : UnitCell) : ℝ × ℝ × ℝ :=
  (vnorm c.vecA, vnorm c.vecB, vnorm c.vecC)

/-- Angle, in degrees, between two real 3-vectors. -/
noncomputable def angleDeg (u v : ℝ × ℝ × ℝ) : ℝ :=
  Real.arccos (vdot u v / (vnorm u * vnorm v)) * 180 / Real.pi

/-- Canonical angles `(α, β, γ)` of the cell in degrees: `α` between `b,c`,
`β` between `a,c`, `γ` between `a,b` (spec §3, §4.2). -/
noncomputable def UnitCell.angles (c : UnitCell) : ℝ × ℝ × ℝ :=
  (angleDeg c.vecB c.vecC, angleDeg c.vecA c.vecC, angleDeg c.vecA c.vecB)

/-- Modelled from the spec (§3): an atom of the data model. -/
structure Atom where
  name : String := ""
  type : String := ""
  mass : ℚ := 0
  charge : ℚ := 0
deriving DecidableEq, Repr

/-- Modelled from the spec (§3): ordered atoms plus optional bonding and
residue information. -/
structure Topology where
  atoms : List Atom := []
  bonds : List (ℕ × ℕ) := []
  residues : List (List ℕ) := []
deriving DecidableEq, Repr

/-- Number of atoms of a topology. -/
def Topology.size (t : Topology) : ℕ := t.atoms.length

/-- Modelled from the spec (§3): a tagged property value. -/
inductive Property
  | double (q : ℚ)
  | boolean (b : Bool)
  | str (s : String)
  | vec3 (v : Vec3)
deriving DecidableEq, Repr

/-- Modelled from the spec (§3): a frame: positions, optional parallel
velocities, a unit cell, the file's own step number, named properties, and
the topology discovered from (or overriding) the per-step record. -/
structure Frame where
  positions : List Vec3
  velocities : Option (List Vec3)
  cell : UnitCell
  step : ℤ
  properties : List (String × Property)
  topology : Topology
deriving DecidableEq, Repr

/-- Number of atoms of a frame. -/
def Frame.size (f : Frame) : ℕ := f.positions.length

/-- Look a named property up on a frame (absence is a distinct state). -/
def Frame.get? (f : Frame) (name : String) : Option Property :=
  f.properties.lookup name

/-- Modelled from the spec (§7): the error taxonomy relevant to this core;
`file` covers out-of-range and end-of-stream conditions, `format` structural
schema violations, `memory` size mismatches. -/
inductive ParseError
  | file (msg : String)
  | format (msg : String)
  | memory (msg : String)
deriving DecidableEq, Repr

/-- Equality on `Except` results is decidable whenever it is on both sides
(used to evaluate the model on concrete inputs). -/
instance {ε α : Type} [DecidableEq ε] [DecidableEq α] :
    DecidableEq (Except ε α) := fun a b =>
  match a, b with
  | Except.error e, Except.error f =>
    if h : e = f then Decidable.isTrue (by rw [h])
    else Decidable.isFalse (fun hh => h (Except.error.inj hh))
  | Except.ok x, Except.ok y =>
    if h : x = y then Decidable.isTrue (by rw [h])
    else Decidable.isFalse (fun hh => h (Except.ok.inj hh))
  | Except.error _, Except.ok _ =>
    Decidable.isFalse (fun hh => Except.noConfusion hh)
  | Except.ok _, Except.error _ =>
    Decidable.isFalse (fun hh => Except.noConfusion hh)

/-! ## Column resolution (spec §4.1)

The ATOMS marker line lists column names in arbitrary order and arbitrary
subset; fields of a data line are addressed by looking the column name up in
the name-to-field association obtained by zipping the column list with the
data line. -/

/-- The raw field of `row` under the column called `name`, if that column is
declared in `cols`. -/
def colVal (cols : Line) (row : Line) (name : String) : Option String :=
  (cols.zip row).lookup name

/-- Whether a column name is declared. -/
def hasCol (cols : Line) (name : String) : Bool :=
  cols.contains name

/-- Numeric field of a mandatory column: the column is known to be declared;
an unparsable token is a format error. -/
def numField (cols row : Line) (name : String) : Except ParseError ℚ :=
  match colVal cols row name with
  | none =>
    Except.error (ParseError.format
      ("missing field for column '" ++ name ++ "' in LAMMPS format"))
  | some tok =>
    match parseRatTok tok with
    | none =>
      Except.error (ParseError.format
        ("can not parse '" ++ tok ++ "' as a number in LAMMPS format"))
    | some q => Except.ok q

/-- Numeric field of an optional column: an absent column yields the given
default (spec §4.1: missing velocity axes and image indices default to 0). -/
def numFieldD (cols row : Line) (name : String) (d : ℚ) : Except ParseError ℚ :=
  match colVal cols row name with
  | none => Except.ok d
  | some tok =>
    match parseRatTok tok with
    | none =>
      Except.error (ParseError.format
        ("can not parse '" ++ tok ++ "' as a number in LAMMPS format"))
    | some q => Except.ok q

/-- Whether all three coordinate columns of a representation are declared
(spec §4.1: only a fully-available representation is usable). -/
def hasTriple (cols : Line) (x y z : String) : Bool :=
  hasCol cols x && hasCol cols y && hasCol cols z

/-- The numeric value of a field, as an option (used to state theorems about
successfully parsed rows). -/
def colRat (cols row : Line) (name : String) : Option ℚ :=
  (colVal cols row name).bind parseRatTok

/-- The numeric value of a field with a default. -/
def colRatD (cols row : Line) (name : String) (d : ℚ) : ℚ :=
  (colRat cols row name).getD d

/-- Modelled from the spec (§4.1): resolve the position of one data line by
the representation priority order
`xu/yu/zu > x/y/z (+ image indices) > xsu/ysu/zsu > xs/ys/zs (+ image
indices)`; scaled coordinates are converted by the cell matrix and offset by
the box origin `lo` (as witnessed by the triclinic scaled+image reference
test); a step with no usable representation defaults each position to
`(0,0,0)`. -/
def resolvePosition (cell : UnitCell) (origin : Vec3) (cols row : Line) :
    Except ParseError Vec3 :=
  if hasTriple cols "xu" "yu" "zu" then do
    let x ← numField cols row "xu"
    let y ← numField cols row "yu"
    let z ← numField cols row "zu"
    Except.ok (x, y, z)
  else if hasTriple cols "x" "y" "z" then do
    let x ← numField cols row "x"
    let y ← numField cols row "y"
    let z ← numField cols row "z"
    let ix ← numFieldD cols row "ix" 0
    let iy ← numFieldD cols row "iy" 0
    let iz ← numFieldD cols row "iz" 0
    Except.ok ((x, y, z) + cell.imageShift (ix, iy, iz))
  else if hasTriple cols "xsu" "ysu" "zsu" then do
    let sx ← numField cols row "xsu"
    let sy ← numField cols row "ysu"
    let sz ← numField cols row "zsu"
    Except.ok (origin + cell.fracToCart (sx, sy, sz))
  else if hasTriple cols "xs" "ys" "zs" then do
    let sx ← numField cols row "xs"
    let sy ← numField cols row "ys"
    let sz ← numField cols row "zs"
    let ix ← numFieldD cols row "ix" 0
    let iy ← numFieldD cols row "iy" 0
    let iz ← numFieldD cols row "iz" 0
    Except.ok (origin + cell.fracToCart (sx + ix, sy + iy, sz + iz))
  else
    Except.ok (0, 0, 0)

/-- Whether any explicit velocity column is declared (spec §4.1). -/
def hasVelocities (cols : Line) : Bool :=
  hasCol cols "vx" || hasCol cols "vy" || hasCol cols "vz"

/-- Modelled from the spec (§4.1): the velocity of one data line; any axis
whose column is missing defaults to zero. -/
def resolveVelocity (cols row : Line) : Except ParseError Vec3 := do
  let vx ← numFieldD cols row "vx" 0
  let vy ← numFieldD cols row "vy" 0
  let vz ← numFieldD cols row "vz" 0
  Except.ok (vx, vy, vz)

/-- Modelled from the spec (§3, §4.1): the atom attributes of one data line:
`element` gives the name, `type` the species as text, `mass` and `q` the
explicit mass and charge (defaulting to 0 when absent). -/
def resolveAtom (cols row : Line) : Except ParseError Atom := do
  let mass ← numFieldD cols row "mass" 0
  let charge ← numFieldD cols row "q" 0
  Except.ok
    { name := (colVal cols row "element").getD ""
      type := (colVal cols row "type").getD ""
      mass := mass
      charge := charge }

/-- Everything the parser extracts from one data line. -/
structure RowData where
  atom : Atom
  pos : Vec3
  vel : Vec3
deriving DecidableEq, Repr

/-- The format error for a data line with the wrong number of fields. -/
def fieldCountMsg (expected got : ℕ) : String :=
  "LAMMPS line has wrong number of fields: expected " ++ toString expected ++
    " got " ++ toString got

/-- The format error for a duplicate atom identifier (spec §4.1, §6): the
one-based identifier of the offending data line is reported. -/
def duplicateIdMsg (id : ℕ) : String :=
  "found atoms with the same ID in LAMMPS format: " ++ toString id ++
    " is already present"

/-- Parse one data line: check the field count against the column list, then
resolve atom attributes, position and velocity. -/
def parseRow (cell : UnitCell) (origin : Vec3) (cols row : Line) :
    Except ParseError RowData :=
  if row.length ≠ cols.length then
    Except.error (ParseError.format (fieldCountMsg cols.length row.length))
  else do
    let atom ← resolveAtom cols row
    let pos ← resolvePosition cell origin cols row
    let vel ← resolveVelocity cols row
    Except.ok { atom := atom, pos := pos, vel := vel }

/-- Modelled from the spec (§4.1): the output slot of a data line: with an
identifier column the one-based external ID maps to slot `id - 1`, otherwise
atoms are stored in file order (`i` is the zero-based ordinal of the line). -/
def slotOf (cols row : Line) (i : ℕ) : Except ParseError ℕ :=
  match colVal cols row "id" with
  | none => Except.ok i
  | some tok =>
    match parseNatTok tok with
    | none =>
      Except.error (ParseError.format
        ("can not parse '" ++ tok ++ "' as an atom ID in LAMMPS format"))
    | some id =>
      if id = 0 then
        Except.error (ParseError.format
          ("invalid atom ID 0 in LAMMPS format"))
      else Except.ok (id - 1)

/-- Modelled from the spec (§4.1): process the data lines in file order,
placing each parsed line into its slot; a second line whose slot is already
occupied is a structural error naming the offending identifier — no silent
overwrite. -/
def placeRows (cell : UnitCell) (origin : Vec3) (cols : Line) :
    List Line → ℕ → List (Option RowData) →
    Except ParseError (List (Option RowData))
  | [], _, slots => Except.ok slots
  | row :: rest, i, slots =>
    match parseRow cell origin cols row with
    | Except.error e => Except.error e
    | Except.ok rd =>
      match slotOf cols row i with
      | Except.error e => Except.error e
      | Except.ok j =>
        if h : j < slots.length then
          match slots.get ⟨j, h⟩ with
          | some _ =>
            Except.error (ParseError.format (duplicateIdMsg (j + 1)))
          | none =>
            placeRows cell origin cols rest (i + 1) (slots.set j (some rd))
        else
          Except.error (ParseError.format
            ("atom ID " ++ toString (j + 1) ++
              " is out of range in LAMMPS format"))

/-- Extract the completed slots; an unfilled slot is a structural error. -/
def extractSlots : List (Option RowData) → Except ParseError (List RowData)
  | [] => Except.ok []
  | some rd :: rest => (extractSlots rest).map (fun l => rd :: l)
  | none :: _ =>
    Except.error (ParseError.format "missing atom data in LAMMPS format")

/-- Parse the `n` data lines of one step into the per-slot row data. -/
def parseAtomRows (cell : UnitCell) (origin : Vec3) (cols : Line)
    (rows : List Line) (n : ℕ) : Except ParseError (List RowData) := do
  let slots ← placeRows cell origin cols rows 0 (List.replicate n none)
  extractSlots slots

/-! ## Header parsing (spec §4.1, §6)

A step is an ordered sequence of blocks, each introduced by an `ITEM:`
marker line.  `UNITS` and `TIME` are optional and may appear in any position
before the `ATOMS` block; `TIMESTEP`, `NUMBER OF ATOMS`, `BOX BOUNDS` and
`ATOMS` are mandatory, in that order. -/

/-- The kind of block a marker line introduces. -/
inductive ItemKind
  | timestep
  | numAtoms
  | units
  | time
  | boxBounds (flags : Line)
  | atoms (cols : Line)
  | other (tok : String)
deriving DecidableEq, Repr

/-- Classify a line: `none` when the line is not an `ITEM:` marker at all. -/
def itemKind? (l : Line) : Option ItemKind :=
  match l with
  | "ITEM:" :: rest =>
    some (match rest with
      | ["TIMESTEP"] => ItemKind.timestep
      | ["NUMBER", "OF", "ATOMS"] => ItemKind.numAtoms
      | ["UNITS"] => ItemKind.units
      | ["TIME"] => ItemKind.time
      | "BOX" :: "BOUNDS" :: flags => ItemKind.boxBounds flags
      | "ATOMS" :: cols => ItemKind.atoms cols
      | tok :: _ => ItemKind.other tok
      | [] => ItemKind.other "")
  | _ => none

/-- The token reported in an `expected X got Y` diagnostic for a marker. -/
def itemName : ItemKind → String
  | ItemKind.timestep => "TIMESTEP"
  | ItemKind.numAtoms => "NUMBER OF ATOMS"
  | ItemKind.units => "UNITS"
  | ItemKind.time => "TIME"
  | ItemKind.boxBounds _ => "BOX BOUNDS"
  | ItemKind.atoms _ => "ATOMS"
  | ItemKind.other tok => tok

/-- The optional header metadata of one step; never inherited from a
previous step (spec §4.1). -/
structure OptHeader where
  units : Option String := none
  time : Option ℚ := none
deriving DecidableEq, Repr

/-- End-of-input error while reading a step. -/
def eofMsg : String :=
  "can not read next step as LAMMPS format: unexpected end of file"

/-- Modelled from the spec (§4.1): greedily consume the optional `UNITS` and
`TIME` blocks (marker line plus one value line each) in front of the input,
recording their values; stops at the first line that is not one of these two
markers. -/
def readOptionals : List Line → OptHeader →
    Except ParseError (OptHeader × List Line)
  | [], st => Except.ok (st, [])
  | l :: rest, st =>
    match itemKind? l with
    | some ItemKind.units =>
      match rest with
      | [] => Except.error (ParseError.file eofMsg)
      | v :: rest2 =>
        readOptionals rest2 { st with units := some (String.intercalate " " v) }
    | some ItemKind.time =>
      match rest with
      | [] => Except.error (ParseError.file eofMsg)
      | v :: rest2 =>
        match parseRatTok (v.headD "") with
        | none =>
          Except.error (ParseError.format
            ("can not parse '" ++ v.headD "" ++
              "' as the time in LAMMPS format"))
        | some t => readOptionals rest2 { st with time := some t }
    | _ => Except.ok (st, l :: rest)

/-- Expect the `TIMESTEP` marker and its integer value line. -/
def expectTimestep (lines : List Line) :
    Except ParseError (ℤ × List Line) :=
  match lines with
  | [] => Except.error (ParseError.file eofMsg)
  | l :: rest =>
    match itemKind? l with
    | none =>
      Except.error (ParseError.format
        "can not read next step as LAMMPS format: expected an ITEM entry")
    | some ItemKind.timestep =>
      match rest with
      | [] => Except.error (ParseError.file eofMsg)
      | v :: rest2 =>
        match parseIntTok (v.headD "") with
        | none =>
          Except.error (ParseError.format
            ("can not parse '" ++ v.headD "" ++
              "' as the timestep in LAMMPS format"))
        | some ts => Except.ok (ts, rest2)
    | some k =>
      Except.error (ParseError.format
        ("can not read next step as LAMMPS format: expected 'TIMESTEP' got '"
          ++ itemName k ++ "'"))

/-- Expect the `NUMBER OF ATOMS` marker and its value line. -/
def expectNumAtoms (lines : List Line) :
    Except ParseError (ℕ × List Line) :=
  match lines with
  | [] => Except.error (ParseError.file eofMsg)
  | l :: rest =>
    match itemKind? l with
    | none =>
      Except.error (ParseError.format
        "can not read next step as LAMMPS format: expected an ITEM entry")
    | some ItemKind.numAtoms =>
      match rest with
      | [] => Except.error (ParseError.file eofMsg)
      | v :: rest2 =>
        match parseNatTok (v.headD "") with
        | none =>
          Except.error (ParseError.format
            ("can not parse '" ++ v.headD "" ++
              "' as the number of atoms in LAMMPS format"))
        | some n => Except.ok (n, rest2)
    | some k =>
      Except.error (ParseError.format
        ("can not read next step as LAMMPS format: expected 'NUMBER OF ATOMS' got '"
          ++ itemName k ++ "'"))

/-- The diagnostic prefix of box-header errors. -/
def boxErrPre : String := "can not read box header in LAMMPS format: "

/-- Parse one `BOX BOUNDS` data line, taking its first `k` numeric fields;
a shorter line is the `incomplete box dimensions` structural error. -/
def parseBoxLine (k : ℕ) (l : Line) : Except ParseError (List ℚ) :=
  if l.length < k then
    Except.error (ParseError.format
      (boxErrPre ++ "incomplete box dimensions in LAMMPS format, expected "
        ++ toString k ++ " but got " ++ toString l.length))
  else
    (l.take k).mapM (fun tok =>
      match parseRatTok tok with
      | none =>
        Except.error (ParseError.format
          (boxErrPre ++ "can not parse '" ++ tok ++
            "' as a box bound in LAMMPS format"))
      | some q => Except.ok q)

/-- Modelled from the spec (§4.2, §6): whether the `BOX BOUNDS` marker
declares a triclinic cell: the three tilt-factor names are present, either
after the boundary-condition flags or (legacy ordering) before them. -/
def boxIsTriclinic (flags : Line) : Bool :=
  hasCol flags "xy" && hasCol flags "xz" && hasCol flags "yz"

/-- Modelled from the spec (§4.2) and the reference tests: read the three
`(lo, hi[, tilt])` bound lines following a `BOX BOUNDS` marker and
reconstruct the cell matrix: lengths are the raw `hi - lo` differences,
tilts the third fields; also returns the box origin `(lo, lo, lo)` used for
scaled-coordinate conversion. -/
def readBoxBody (flags : Line) (lines : List Line) :
    Except ParseError (UnitCell × Vec3 × List Line) :=
  let k := if boxIsTriclinic flags then 3 else 2
  match lines with
  | l1 :: l2 :: l3 :: rest => do
    let v1 ← parseBoxLine k l1
    let v2 ← parseBoxLine k l2
    let v3 ← parseBoxLine k l3
    let cell : UnitCell :=
      { lx := v1.getD 1 0 - v1.getD 0 0
        ly := v2.getD 1 0 - v2.getD 0 0
        lz := v3.getD 1 0 - v3.getD 0 0
        xy := v1.getD 2 0
        xz := v2.getD 2 0
        yz := v3.getD 2 0 }
    Except.ok (cell, (v1.getD 0 0, v2.getD 0 0, v3.getD 0 0), rest)
  | _ => Except.error (ParseError.file (boxErrPre ++ "unexpected end of file"))

/-- Expect the `BOX BOUNDS` marker and its three bound lines. -/
def expectBox (lines : List Line) :
    Except ParseError (UnitCell × Vec3 × List Line) :=
  match lines with
  | [] => Except.error (ParseError.file (boxErrPre ++ "unexpected end of file"))
  | l :: rest =>
    match itemKind? l with
    | none =>
      Except.error (ParseError.format
        (boxErrPre ++ "expected an ITEM entry in LAMMPS format, got '"
          ++ l.headD "" ++ "'"))
    | some (ItemKind.boxBounds flags) => readBoxBody flags rest
    | some _ =>
      Except.error (ParseError.format
        (boxErrPre ++ "missing 'BOX BOUNDS' item in LAMMPS format"))

/-- Expect the `ATOMS` marker, yielding its column-name list. -/
def expectAtoms (lines : List Line) :
    Except ParseError (Line × List Line) :=
  match lines with
  | [] => Except.error (ParseError.file eofMsg)
  | l :: rest =>
    match itemKind? l with
    | none =>
      Except.error (ParseError.format
        "can not read next step as LAMMPS format: expected an ITEM entry")
    | some (ItemKind.atoms cols) => Except.ok (cols, rest)
    | some k =>
      Except.error (ParseError.format
        ("can not read next step as LAMMPS format: expected 'ATOMS' got '"
          ++ itemName k ++ "'"))

/-- The frame-level properties contributed by the optional header blocks. -/
def propsOf (oh : OptHeader) : List (String × Property) :=
  (match oh.units with
    | some u => [("lammps_units", Property.str u)]
    | none => []) ++
  (match oh.time with
    | some t => [("time", Property.double t)]
    | none => [])

/-- Modelled from the spec (§4.1, §6): parse exactly one step from the front
of the input, producing its frame and the remaining lines.  Optional
`UNITS`/`TIME` blocks are accepted before each mandatory block; the frame is
built afresh from this step's blocks only. -/
def parseStep (lines : List Line) : Except ParseError (Frame × List Line) := do
  let (oh1, r1) ← readOptionals lines {}
  let (ts, r2) ← expectTimestep r1
  let (oh2, r3) ← readOptionals r2 oh1
  let (n, r4) ← expectNumAtoms r3
  let (oh3, r5) ← readOptionals r4 oh2
  let (cell, origin, r6) ← expectBox r5
  let (oh4, r7) ← readOptionals r6 oh3
  let (cols, r8) ← expectAtoms r7
  let rows := r8.take n
  if rows.length < n then Except.error (ParseError.file eofMsg)
  else do
    let rds ← parseAtomRows cell origin cols rows n
    Except.ok
      ({ positions := rds.map (fun rd => rd.pos)
         velocities :=
           if hasVelocities cols then some (rds.map (fun rd => rd.vel))
           else none
         cell := cell
         step := ts
         properties := propsOf oh4
         topology := { atoms := rds.map (fun rd => rd.atom) } },
       r8.drop n)

/-! ## Step index and trajectory (spec §4.2, §4.3, §4.4)

The step index is modelled by caching, for each already-visited step
ordinal, the suffix of the file at which that step starts (the token-level
counterpart of a byte offset).  `read_step n` seeks directly when `n` is
indexed and otherwise scans forward from the highest indexed position,
indexing every step encountered on the way. -/

/-- Fuelled worker for `stepSuffixes`; one fuel unit per parsed step. -/
def stepSuffixesAux : ℕ → List Line → List (List Line)
  | 0, _ => []
  | fuel + 1, lines =>
    match parseStep lines with
    | Except.error _ => []
    | Except.ok (_, rest) => lines :: stepSuffixesAux fuel rest

/-- The list of file suffixes at which the successive steps of a file start;
its length is the number of complete steps of the file. -/
def stepSuffixes (lines : List Line) : List (List Line) :=
  stepSuffixesAux (lines.length + 1) lines

/-- Number of steps of a file. -/
def nstepsOf (lines : List Line) : ℕ :=
  (stepSuffixes lines).length

/-- The file-level error raised for a step ordinal at or beyond the number
of steps (spec §4.2: a request out of range). -/
def rangeMsg : String :=
  "can not read file: step is out of range in LAMMPS format"

/-- The reference semantics of `read_step`: the frame parsed at the start of
the `n`-th step, or a file error when `n` is out of range. -/
def readStepPure (lines : List Line) (n : ℕ) : Except ParseError Frame :=
  match (stepSuffixes lines).get? n with
  | some s => (parseStep s).map Prod.fst
  | none => Except.error (ParseError.file rangeMsg)

/-- Modelled from the spec (§4.4): merge the optional topology override into
a freshly parsed frame: the override replaces the file-discovered topology
wholesale; a size mismatch is an error raised at read time. -/
def mergeTopology (ov : Option Topology) (f : Frame) :
    Except ParseError Frame :=
  match ov with
  | none => Except.ok f
  | some T =>
    if T.size = f.size then Except.ok { f with topology := T }
    else
      Except.error (ParseError.memory
        "topology and frame have a different number of atoms")

/-- The reference semantics of `read_step` including the topology merge. -/
def readStepPureT (lines : List Line) (ov : Option Topology) (n : ℕ) :
    Except ParseError Frame :=
  (readStepPure lines n).bind (mergeTopology ov)

/-- Modelled from the spec (§4.2, §4.4): an open trajectory: the input, the
step index built so far (suffix of the file for each visited step ordinal),
the sequential cursor, and the optional topology override. -/
structure Trajectory where
  lines : List Line
  cache : List (List Line)
  cursor : ℕ
  override : Option Topology
deriving DecidableEq, Repr

/-- The step-index invariant: the cache is exactly the already-discovered
prefix of the true step-suffix table of the input. -/
def CacheOK (t : Trajectory) : Prop :=
  t.cache = (stepSuffixes t.lines).take t.cache.length

/-- Open a trajectory: empty index, cursor at the start, no override. -/
def Trajectory.openFile (lines : List Line) : Trajectory :=
  { lines := lines, cache := [], cursor := 0, override := none }

/-- Attach a topology override (spec §4.4, `topology(T)`). -/
def Trajectory.setTopology (t : Trajectory) (T : Topology) : Trajectory :=
  { t with override := some T }

/-- Modelled from the spec (§4.2): grow the step index by scanning forward
from the highest indexed position, one step per fuel unit, stopping when the
input has no further step. -/
def extendCacheAux (lines : List Line) :
    ℕ → List (List Line) → List (List Line)
  | 0, cache => cache
  | fuel + 1, cache =>
    match cache.getLast? with
    | none =>
      match parseStep lines with
      | Except.error _ => cache
      | Except.ok _ => extendCacheAux lines fuel [lines]
    | some s =>
      match parseStep s with
      | Except.error _ => cache
      | Except.ok (_, rest) =>
        match parseStep rest with
        | Except.error _ => cache
        | Except.ok _ => extendCacheAux lines fuel (cache ++ [rest])

/-- Modelled from the spec (§4.2, §4.3): `read_step n`: extend the index as
far as needed (a no-op when `n` is already indexed), then parse at the
indexed position; an ordinal beyond the last step is a file error.  The
sequential cursor is not disturbed. -/
def Trajectory.readStep (t : Trajectory) (n : ℕ) :
    Except ParseError Frame × Trajectory :=
  match (extendCacheAux t.lines (n + 1 - t.cache.length) t.cache).get? n with
  | some s =>
    (((parseStep s).map Prod.fst).bind (mergeTopology t.override),
     { t with cache := extendCacheAux t.lines (n + 1 - t.cache.length) t.cache })
  | none =>
    (Except.error (ParseError.file rangeMsg),
     { t with cache := extendCacheAux t.lines (n + 1 - t.cache.length) t.cache })

/-- Modelled from the spec (§4.3): sequential `read`: read at the cursor and
advance it past the step just read; at end of stream the cursor stays and
the file-level error propagates. -/
def Trajectory.read (t : Trajectory) : Except ParseError Frame × Trajectory :=
  match t.readStep t.cursor with
  | (Except.ok f, t') => (Except.ok f, { t' with cursor := t'.cursor + 1 })
  | (Except.error e, t') => (Except.error e, t')

/-- Modelled from the spec (§4.2): `nsteps`: scan the whole file forward,
indexing every step, and return the final count. -/
def Trajectory.nsteps (t : Trajectory) : ℕ × Trajectory :=
  let c := extendCacheAux t.lines (t.lines.length + 1) t.cache
  (c.length, { t with cache := c })

/-- Execute a list of `read_step` requests in order, collecting results. -/
def runReads : Trajectory → List ℕ → List (Except ParseError Frame)
  | _, [] => []
  | t, n :: rest => (t.readStep n).1 :: runReads (t.readStep n).2 rest

/-! ## Concrete inputs from the reference tests

Token-level transcriptions of the in-memory datasets of
`tests/formats/lammps-atom.cpp`, used to instantiate the claims below. -/

/-- An orthorhombic `0..10` box header with boundary flags `pp pp pp`. -/
def unitBoxBlock : List Line :=
  [["ITEM:", "BOX", "BOUNDS", "pp", "pp", "pp"],
   ["0", "10"], ["0", "10"], ["0", "10"]]

/-- The `20 × 30 × 40` box of the `Best position representation` test. -/
def bigBoxBlock : List Line :=
  [["ITEM:", "BOX", "BOUNDS", "pp", "pp", "pp"],
   ["0.0000000000000000e+00", "2.0000000000000000e+01"],
   ["0.0000000000000000e+00", "3.0000000000000000e+01"],
   ["0.0000000000000000e+00", "4.0000000000000000e+01"]]

/-- Step 0 of the `Best position representation` test: an incomplete
Cartesian set (`y z` without `x`) next to a full scaled set, no image
columns. -/
def reprStep0 : List Line :=
  [["ITEM:", "TIMESTEP"], ["0"],
   ["ITEM:", "NUMBER", "OF", "ATOMS"], ["1"]] ++ bigBoxBlock ++
  [["ITEM:", "ATOMS", "id", "type", "y", "z", "xs", "ys", "zs"],
   ["1", "1", "-1", "-1", "0.5", "0.5", "0.5"]]

/-- Step 1 of the `Best position representation` test: wrapped Cartesian,
unwrapped Cartesian and a scaled-unwrapped-named set simultaneously. -/
def reprStep1 : List Line :=
  [["ITEM:", "TIMESTEP"], ["1"],
   ["ITEM:", "NUMBER", "OF", "ATOMS"], ["1"]] ++ bigBoxBlock ++
  [["ITEM:", "ATOMS", "id", "type", "x", "y", "z", "xu", "yu", "zu",
      "xus", "yus", "zus"],
   ["1", "1", "-1", "-1", "-1", "150.5", "160.6", "170.7", "-1", "-1", "-1"]]

/-- Step 2 of the `Best position representation` test: no position columns
at all. -/
def reprStep2 : List Line :=
  [["ITEM:", "TIMESTEP"], ["2"],
   ["ITEM:", "NUMBER", "OF", "ATOMS"], ["1"]] ++ bigBoxBlock ++
  [["ITEM:", "ATOMS", "id", "type"],
   ["1", "1"]]

/-- The three bound lines of the `Triclinic boxes` test:
`(-4,6,5) / (0,20,4) / (-1,10,3.5)`. -/
def triclinicBounds : List Line :=
  [["-4.0000000000000000e+00", "6.0000000000000000e+00",
      "5.0000000000000000e+00"],
   ["0.0000000000000000e+00", "2.0000000000000000e+01",
      "4.0000000000000000e+00"],
   ["-1.0000000000000000e+00", "1.0000000000000000e+01",
      "3.5000000000000000e+00"]]

/-- Step 0 of the `Triclinic boxes` test: tilt-factor names after the
boundary flags. -/
def triclinicStepA : List Line :=
  [["ITEM:", "TIMESTEP"], ["0"],
   ["ITEM:", "NUMBER", "OF", "ATOMS"], ["1"],
   ["ITEM:", "BOX", "BOUNDS", "pp", "pp", "pp", "xy", "xz", "yz"]] ++
  triclinicBounds ++
  [["ITEM:", "ATOMS", "id", "type", "x", "y", "z"],
   ["1", "1", "5", "5", "5"]]

/-- Step 1 of the `Triclinic boxes` test: the alternate legacy ordering with
tilt-factor names before the boundary flags. -/
def triclinicStepB : List Line :=
  [["ITEM:", "TIMESTEP"], ["1"],
   ["ITEM:", "NUMBER", "OF", "ATOMS"], ["1"],
   ["ITEM:", "BOX", "BOUNDS", "xy", "xz", "yz", "pp", "pp", "pp"]] ++
  triclinicBounds ++
  [["ITEM:", "ATOMS", "id", "type", "xs", "ys", "zs", "ix", "iy", "iz"],
   ["1", "1", "0.604545", "0.154545", "0.545455", "3", "1", "1"]]

/-- The exact cell both triclinic steps reconstruct to. -/
def triclinicCell : UnitCell :=
  { lx := 10, ly := 20, lz := 11, xy := 5, xz := 4, yz := 7 / 2 }

/-- The `Atom properties` test step: a thoroughly permuted column list. -/
def atomPropsStep : List Line :=
  [["ITEM:", "TIMESTEP"], ["7"],
   ["ITEM:", "NUMBER", "OF", "ATOMS"], ["2"],
   ["ITEM:", "BOX", "BOUNDS", "pp", "pp", "pp"],
   ["-1.5000000000000000e+00", "2.0000000000000000e+01"],
   ["-2.6000000000000000e+00", "3.0000000000000000e+01"],
   ["-3.7000000000000000e+00", "4.0000000000000000e+01"],
   ["ITEM:", "ATOMS", "type", "element", "z", "mass", "y", "x", "vy", "vz",
      "q", "id"],
   ["32", "Ge", "-1.234", "72.6", "50.432", "1.555", "-2.345", "6.456",
      "2.5", "2"],
   ["87", "Fr", "7", "223.0", "6", "5", "8", "9", "-1", "1"]]

/-- The same logical dataset as `atomPropsStep` with the columns (and every
data line) put into a canonical order. -/
def atomPropsStepSorted : List Line :=
  [["ITEM:", "TIMESTEP"], ["7"],
   ["ITEM:", "NUMBER", "OF", "ATOMS"], ["2"],
   ["ITEM:", "BOX", "BOUNDS", "pp", "pp", "pp"],
   ["-1.5000000000000000e+00", "2.0000000000000000e+01"],
   ["-2.6000000000000000e+00", "3.0000000000000000e+01"],
   ["-3.7000000000000000e+00", "4.0000000000000000e+01"],
   ["ITEM:", "ATOMS", "id", "type", "element", "mass", "q", "x", "y", "z",
      "vy", "vz"],
   ["2", "32", "Ge", "72.6", "2.5", "1.555", "50.432", "-1.234", "-2.345",
      "6.456"],
   ["1", "87", "Fr", "223.0", "-1", "5", "6", "7", "8", "9"]]

/-- A step whose data lines repeat the identifier `2` (Scenario B). -/
def duplicateIdStep : List Line :=
  [["ITEM:", "TIMESTEP"], ["0"],
   ["ITEM:", "NUMBER", "OF", "ATOMS"], ["3"]] ++ unitBoxBlock ++
  [["ITEM:", "ATOMS", "id", "type", "x", "y", "z"],
   ["1", "1", "5", "5", "5"],
   ["2", "1", "5", "5", "5"],
   ["2", "1", "6", "6", "6"]]

/-- Scenario C, step with `UNITS metal` defined (3 atoms). -/
def unitsStep : List Line :=
  [["ITEM:", "UNITS"], ["metal"],
   ["ITEM:", "TIMESTEP"], ["15"],
   ["ITEM:", "NUMBER", "OF", "ATOMS"], ["3"]] ++ unitBoxBlock ++
  [["ITEM:", "ATOMS", "id", "type", "x", "y", "z"],
   ["1", "1", "5", "5", "5"],
   ["2", "1", "5", "5", "5"],
   ["3", "1", "5", "5", "5"]]

/-- Scenario C, follow-up step with no `UNITS` header (but a `TIME`). -/
def noUnitsStep : List Line :=
  [["ITEM:", "TIME"], ["335.678"],
   ["ITEM:", "TIMESTEP"], ["20"],
   ["ITEM:", "NUMBER", "OF", "ATOMS"], ["0"]] ++ unitBoxBlock ++
  [["ITEM:", "ATOMS", "id", "type", "x", "y", "z"]]

/-- A two-step file: a step defining `UNITS`, then one omitting it. -/
def unitsFile : List Line := unitsStep ++ noUnitsStep

/-- A one-atom step over a box whose origin is not zero, with scaled
coordinates and no image columns. -/
def shiftedScaledStep : List Line :=
  [["ITEM:", "TIMESTEP"], ["0"],
   ["ITEM:", "NUMBER", "OF", "ATOMS"], ["1"],
   ["ITEM:", "BOX", "BOUNDS", "pp", "pp", "pp"],
   ["5", "25"], ["0", "30"], ["0", "40"],
   ["ITEM:", "ATOMS", "id", "type", "xs", "ys", "zs"],
   ["1", "1", "0.5", "0.5", "0.5"]]

/-- A minimal two-step file used to exercise the trajectory layer. -/
def twoStepFile : List Line :=
  [["ITEM:", "TIMESTEP"], ["0"],
   ["ITEM:", "NUMBER", "OF", "ATOMS"], ["1"]] ++ unitBoxBlock ++
  [["ITEM:", "ATOMS", "id", "type", "x", "y", "z"],
   ["1", "7", "1", "2", "3"],
   ["ITEM:", "TIMESTEP"], ["5"],
   ["ITEM:", "NUMBER", "OF", "ATOMS"], ["1"]] ++ unitBoxBlock ++
  [["ITEM:", "ATOMS", "id", "type", "x", "y", "z"],
   ["1", "7", "4", "5", "6"]]

/-- The canonical `id type x y z` column list. -/
def dupCols : Line := ["id", "type", "x", "y", "z"]

/-- The `0..10` orthorhombic cell of `unitBoxBlock`. -/
def dupCell : UnitCell :=
  { lx := 10, ly := 10, lz := 10, xy := 0, xz := 0, yz := 0 }

/-- Parsed row data of a `5 5 5` atom of type `1`. -/
def dupRowData : RowData :=
  { atom := { name := "", type := "1", mass := 0, charge := 0 }
    pos := (5, 5, 5), vel := (0, 0, 0) }

/-- The column list of step 1 of the `Best position representation` test. -/
def reprCols : Line :=
  ["id", "type", "x", "y", "z", "xu", "yu", "zu", "xus", "yus", "zus"]

/-- The data line of step 1 of the `Best position representation` test. -/
def reprRow : Line :=
  ["1", "1", "-1", "-1", "-1", "150.5", "160.6", "170.7", "-1", "-1", "-1"]

/-- The `20 × 30 × 40` cell of `bigBoxBlock`. -/
def bigCell : UnitCell :=
  { lx := 20, ly := 30, lz := 40, xy := 0, xz := 0, yz := 0 }

/-- The column list of step 0 of the `Best position representation` test. -/
def scaledCols : Line := ["id", "type", "y", "z", "xs", "ys", "zs"]

/-- The data line of step 0 of the `Best position representation` test. -/
def scaledRow : Line := ["1", "1", "-1", "-1", "0.5", "0.5", "0.5"]

/-- Parsed row data of the data line of `reprStep0`. -/
def scaledRowData : RowData :=
  { atom := { name := "", type := "1", mass := 0, charge := 0 }
    pos := (10, 15, 20), vel := (0, 0, 0) }

/-- Parsed row data of the data line of `reprStep1`. -/
def reprRowData : RowData :=
  { atom := { name := "", type := "1", mass := 0, charge := 0 }
    pos := (301 / 2, 803 / 5, 1707 / 10), vel := (0, 0, 0) }

/-- The first two data lines of `duplicateIdStep`. -/
def dupRows : List Line := [["1", "1", "5", "5", "5"], ["2", "1", "5", "5", "5"]]

/-- The offending third data line of `duplicateIdStep`. -/
def dupRow3 : Line := ["2", "1", "6", "6", "6"]

/-- Parsed row data of `dupRow3`. -/
def dupRowData3 : RowData :=
  { atom := { name := "", type := "1", mass := 0, charge := 0 }
    pos := (6, 6, 6), vel := (0, 0, 0) }

/-- The slot table after placing the first two lines of `duplicateIdStep`. -/
def dupSlots : List (Option RowData) :=
  [some dupRowData, some dupRowData, none]

/-- The column list of the `Atom properties` test step. -/
def apCols : Line :=
  ["type", "element", "z", "mass", "y", "x", "vy", "vz", "q", "id"]

/-- The canonically ordered version of `apCols`. -/
def apColsSorted : Line :=
  ["id", "type", "element", "mass", "q", "x", "y", "z", "vy", "vz"]

/-- First data line of the `Atom properties` test step. -/
def apRow1 : Line :=
  ["32", "Ge", "-1.234", "72.6", "50.432", "1.555", "-2.345", "6.456",
    "2.5", "2"]

/-- Second data line of the `Atom properties` test step. -/
def apRow2 : Line :=
  ["87", "Fr", "7", "223.0", "6", "5", "8", "9", "-1", "1"]

/-- `apRow1` reordered along `apColsSorted`. -/
def apRow1Sorted : Line :=
  ["2", "32", "Ge", "72.6", "2.5", "1.555", "50.432", "-1.234", "-2.345",
    "6.456"]

/-- `apRow2` reordered along `apColsSorted`. -/
def apRow2Sorted : Line :=
  ["1", "87", "Fr", "223.0", "-1", "5", "6", "7", "8", "9"]

/-- The `21.5 × 32.6 × 43.7` cell of the `Atom properties` test step. -/
def apCell : UnitCell :=
  { lx := 43 / 2, ly := 163 / 5, lz := 437 / 10, xy := 0, xz := 0, yz := 0 }

/-- The box origin of the `Atom properties` test step. -/
def apOrigin : Vec3 := (-3 / 2, -13 / 5, -37 / 10)

/-- Parsed row data of `apRow2` (slot 0, atom `Fr`). -/
def apRowData1 : RowData :=
  { atom := { name := "Fr", type := "87", mass := 223, charge := -1 }
    pos := (5, 6, 7), vel := (0, 8, 9) }

/-- Parsed row data of `apRow1` (slot 1, atom `Ge`). -/
def apRowData2 : RowData :=
  { atom := { name := "Ge", type := "32", mass := 363 / 5, charge := 5 / 2 }
    pos := (311 / 200, 6304 / 125, -617 / 500), vel := (0, -469 / 200, 807 / 125) }

/-- The frame parsed from `noUnitsStep`: a `TIME` property but no
`lammps_units`. -/
def noUnitsFrame : Frame :=
  { positions := []
    velocities := none
    cell := dupCell
    step := 20
    properties := [("time", Property.double (167839 / 500))]
    topology := { atoms := [] } }

/-- The frame of step 0 of `twoStepFile`. -/
def twoStepFrame0 : Frame :=
  { positions := [(1, 2, 3)]
    velocities := none
    cell := dupCell
    step := 0
    properties := []
    topology := { atoms := [{ name := "", type := "7", mass := 0, charge := 0 }] } }

/-- A one-atom override topology (`Fe`), as in the trajectory test. -/
def feTopology : Topology :=
  { atoms := [{ name := "Fe", type := "", mass := 0, charge := 0 }] }

/-- A column list declaring wrapped Cartesian coordinates with image
indices next to both scaled representations (no unwrapped Cartesian). -/
def repr3Cols : Line :=
  ["id", "type", "x", "y", "z", "ix", "iy", "iz", "xs", "ys", "zs",
    "xsu", "ysu", "zsu"]

/-- A data line for `repr3Cols`. -/
def repr3Row : Line :=
  ["1", "1", "1", "2", "3", "1", "0", "2", "0.5", "0.5", "0.5",
    "0.9", "0.9", "0.9"]

/-- A step exposing representations 2, 3 and 4 simultaneously: the wrapped
Cartesian set must win. -/
def reprStep3 : List Line :=
  [["ITEM:", "TIMESTEP"], ["3"],
   ["ITEM:", "NUMBER", "OF", "ATOMS"], ["1"]] ++ bigBoxBlock ++
  [["ITEM:", "ATOMS"] ++ repr3Cols, repr3Row]

/-- A column list declaring both scaled representations and nothing
Cartesian. -/
def repr4Cols : Line := ["id", "type", "xsu", "ysu", "zsu", "xs", "ys", "zs"]

/-- A data line for `repr4Cols`. -/
def repr4Row : Line := ["1", "1", "0.25", "0.5", "0.75", "0.1", "0.1", "0.1"]

/-- A step exposing representations 3 and 4 simultaneously: the scaled
unwrapped set must win. -/
def reprStep4 : List Line :=
  [["ITEM:", "TIMESTEP"], ["4"],
   ["ITEM:", "NUMBER", "OF", "ATOMS"], ["1"]] ++ bigBoxBlock ++
  [["ITEM:", "ATOMS"] ++ repr4Cols, repr4Row]

/-- Parsed row data of `repr4Row`: the `xsu/ysu/zsu` conversion. -/
def repr4RowData : RowData :=
  { atom := { name := "", type := "1", mass := 0, charge := 0 }
    pos := (5, 15, 30), vel := (0, 0, 0) }

/-- The frame parsed from `unitsStep` (step 0 of `unitsFile`): carries
`lammps_units` but no `time`, although the following step defines `TIME`. -/
def unitsFrame : Frame :=
  { positions := [(5, 5, 5), (5, 5, 5), (5, 5, 5)]
    velocities := none
    cell := dupCell
    step := 15
    properties := [("lammps_units", Property.str "metal")]
    topology := { atoms :=
      [{ name := "", type := "1", mass := 0, charge := 0 },
       { name := "", type := "1", mass := 0, charge := 0 },
       { name := "", type := "1", mass := 0, charge := 0 }] } }

/-- The frame of step 1 of `twoStepFile`. -/
def twoStepFrame1 : Frame :=
  { positions := [(4, 5, 6)]
    velocities := none
    cell := dupCell
    step := 5
    properties := []
    topology := { atoms := [{ name := "", type := "7", mass := 0, charge := 0 }] } }

/-! Theorems: generic association-list and slot lemmas -/

theorem lookup_of_not_mem_keys {α β : Type} [BEq α] [LawfulBEq α]
    (ps : List (α × β)) (k : α) (h : k ∉ ps.map Prod.fst) :
    ps.lookup k = none := by
  induction ps with
  | nil => rfl
  | cons p t ih =>
    obtain ⟨a, b⟩ := p
    simp only [List.map_cons, List.mem_cons, not_or] at h
    have hk : (k == a) = false := beq_eq_false_iff_ne.mpr h.1
    simp [List.lookup, hk, ih h.2]

theorem lookup_perm_of_nodup_keys {α β : Type} [BEq α] [LawfulBEq α]
    {l₁ l₂ : List (α × β)} (p : l₁.Perm l₂)
    (nd : (l₁.map Prod.fst).Nodup) (k : α) :
    l₁.lookup k = l₂.lookup k := by
  induction p with
  | nil => rfl
  | cons x p ih =>
    obtain ⟨a, b⟩ := x
    simp only [List.map_cons, List.nodup_cons] at nd
    by_cases hk : k = a
    · subst hk; simp [List.lookup]
    · have hk' : (k == a) = false := beq_eq_false_iff_ne.mpr hk
      simp [List.lookup, hk', ih nd.2]
  | swap x y l =>
    obtain ⟨a, b⟩ := x
    obtain ⟨c, d⟩ := y
    simp only [List.map_cons, List.nodup_cons, List.mem_cons, not_or] at nd
    by_cases h1 : k = c
    · subst h1
      have h2 : (k == a) = false := beq_eq_false_iff_ne.mpr nd.1.1
      simp [List.lookup, h2]
    · have h1' : (k == c) = false := beq_eq_false_iff_ne.mpr h1
      by_cases h2 : k = a
      · subst h2; simp [List.lookup, h1']
      · have h2' : (k == a) = false := beq_eq_false_iff_ne.mpr h2
        simp [List.lookup, h1', h2']
  | trans p₁ p₂ ih₁ ih₂ =>
    exact (ih₁ nd).trans (ih₂ ((p₁.map Prod.fst).nodup_iff.mp nd))

theorem filterMap_id_set_perm {α : Type} (l : List (Option α)) (j : ℕ) (d : α)
    (h : l.get? j = some none) :
    ((l.set j (some d)).filterMap id).Perm (d :: l.filterMap id) := by
  induction l generalizing j with
  | nil => simp at h
  | cons a t ih =>
    cases j with
    | zero =>
      simp only [List.get?] at h
      cases a with
      | none => simp [List.set, List.filterMap_cons]
      | some b => simp at h
    | succ j =>
      simp only [List.get?] at h
      cases a with
      | none =>
        simpa [List.set, List.filterMap_cons] using ih j h
      | some b =>
        simp only [List.set, List.filterMap_cons, id]
        exact ((ih j h).cons b).trans (List.Perm.swap d b _)

theorem filterMap_id_replicate_none {α : Type} (n : ℕ) :
    (List.replicate n (none : Option α)).filterMap id = [] := by
  induction n with
  | zero => rfl
  | succ n ih => simp [List.replicate_succ, List.filterMap_cons, ih]

/-! ## Field-access characterizations -/

theorem not_mem_of_hasCol_false (cols : Line) (name : String)
    (h : hasCol cols name = false) : name ∉ cols := by
  intro hmem
  have : cols.contains name = true := by
    exact List.elem_eq_true_of_mem hmem
  simp only [hasCol] at h
  rw [h] at this
  cases this

theorem colVal_eq_none_of_not_contains (cols row : Line) (name : String)
    (h : hasCol cols name = false) : colVal cols row name = none := by
  apply lookup_of_not_mem_keys
  intro hmem
  obtain ⟨⟨x1, x2⟩, hzip, hfst⟩ := List.mem_map.mp hmem
  exact not_mem_of_hasCol_false cols name h (hfst ▸ (List.of_mem_zip hzip).1)

theorem numField_ok_iff (cols row : Line) (name : String) (q : ℚ) :
    numField cols row name = Except.ok q ↔ colRat cols row name = some q := by
  unfold numField colRat
  cases h1 : colVal cols row name with
  | none => simp
  | some tok =>
    cases h2 : parseRatTok tok with
    | none => simp [h2]
    | some v => simp [h2]

theorem numFieldD_ok_iff (cols row : Line) (name : String) (d q : ℚ) :
    numFieldD cols row name d = Except.ok q ↔
      (colVal cols row name = none ∧ q = d) ∨ colRat cols row name = some q := by
  unfold numFieldD colRat
  cases h1 : colVal cols row name with
  | none => simp [eq_comm]
  | some tok =>
    cases h2 : parseRatTok tok with
    | none => simp [h2]
    | some v => simp [h2]

theorem numFieldD_of_not_contains (cols row : Line) (name : String) (d : ℚ)
    (h : hasCol cols name = false) :
    numFieldD cols row name d = Except.ok d := by
  unfold numFieldD
  rw [colVal_eq_none_of_not_contains cols row name h]

/-! ## Row-placement machinery -/

theorem parseRow_ok_parts (cell : UnitCell) (origin : Vec3) (cols row : Line)
    (rd : RowData) (h : parseRow cell origin cols row = Except.ok rd) :
    row.length = cols.length ∧
      resolveAtom cols row = Except.ok rd.atom ∧
      resolvePosition cell origin cols row = Except.ok rd.pos ∧
      resolveVelocity cols row = Except.ok rd.vel := by
  unfold parseRow at h
  by_cases hlen : row.length = cols.length
  · rw [if_neg (by simpa using hlen)] at h
    cases ha : resolveAtom cols row with
    | error e => rw [ha] at h; cases h
    | ok a =>
      rw [ha] at h
      cases hp : resolvePosition cell origin cols row with
      | error e =>
        rw [hp] at h
        simp only [Except.bind, bind, Except.instMonad] at h
        exact Except.noConfusion h
      | ok p =>
        cases hv : resolveVelocity cols row with
        | error e =>
          rw [hp, hv] at h
          simp only [Except.bind, bind, Except.instMonad] at h
          exact Except.noConfusion h
        | ok v =>
          rw [hp, hv] at h
          simp only [Except.bind, bind, Except.instMonad] at h
          cases h
          exact ⟨hlen, rfl, rfl, rfl⟩
  · rw [if_pos (by simpa using hlen)] at h
    cases h

theorem resolvePosition_xu (cell : UnitCell) (origin : Vec3) (cols row : Line)
    (p : Vec3) (htr : hasTriple cols "xu" "yu" "zu" = true)
    (h : resolvePosition cell origin cols row = Except.ok p) :
    p = (colRatD cols row "xu" 0, colRatD cols row "yu" 0,
      colRatD cols row "zu" 0) := by
  unfold resolvePosition at h
  rw [if_pos htr] at h
  cases hx : numField cols row "xu" with
  | error e => rw [hx] at h; cases h
  | ok x =>
    rw [hx] at h
    cases hy : numField cols row "yu" with
    | error e =>
      rw [hy] at h
      simp only [Except.bind, bind, Except.instMonad] at h
      exact Except.noConfusion h
    | ok y =>
      cases hz : numField cols row "zu" with
      | error e =>
        rw [hy, hz] at h
        simp only [Except.bind, bind, Except.instMonad] at h
        exact Except.noConfusion h
      | ok z =>
        rw [hy, hz] at h
        simp only [Except.bind, bind, Except.instMonad] at h
        cases h
        have cx := (numField_ok_iff cols row "xu" x).mp hx
        have cy := (numField_ok_iff cols row "yu" y).mp hy
        have cz := (numField_ok_iff cols row "zu" z).mp hz
        simp [colRatD, cx, cy, cz]

theorem extractSlots_ok_eq (slots : List (Option RowData))
    (rds : List RowData) (h : extractSlots slots = Except.ok rds) :
    rds = slots.filterMap id := by
  induction slots generalizing rds with
  | nil =>
    cases h
    rfl
  | cons a t ih =>
    cases a with
    | none => cases h
    | some rd =>
      unfold extractSlots at h
      cases he : extractSlots t with
      | error e => rw [he] at h; cases h
      | ok l =>
        rw [he] at h
        cases h
        simp [List.filterMap_cons, ih l he]

theorem placeRows_append (cell : UnitCell) (origin : Vec3) (cols : Line)
    (a b : List Line) (i : ℕ) (slots : List (Option RowData)) :
    placeRows cell origin cols (a ++ b) i slots =
      (placeRows cell origin cols a i slots).bind
        (fun s => placeRows cell origin cols b (i + a.length) s) := by
  induction a generalizing i slots with
  | nil => simp [placeRows, Except.bind]
  | cons r rest ih =>
    show placeRows cell origin cols (r :: (rest ++ b)) i slots = _
    conv_lhs => rw [placeRows]
    conv_rhs => rw [placeRows]
    cases parseRow cell origin cols r with
    | error e => rfl
    | ok rd =>
      dsimp only
      cases slotOf cols r i with
      | error e => rfl
      | ok j =>
        dsimp only
        by_cases hj : j < slots.length
        · simp only [dif_pos hj]
          cases slots.get ⟨j, hj⟩ with
          | some prev => rfl
          | none =>
            dsimp only
            rw [ih (i + 1) (slots.set j (some rd))]
            have harith : i + 1 + rest.length = i + (rest.length + 1) := by
              omega
            simp only [List.length_cons, harith]
        · simp only [dif_neg hj]
          rfl

theorem placeRows_ok_perm (cell : UnitCell) (origin : Vec3) (cols : Line) :
    ∀ (rows : List Line) (i : ℕ) (slots slots' : List (Option RowData)),
    placeRows cell origin cols rows i slots = Except.ok slots' →
    ∃ rds, List.Forall₂
        (fun row rd => parseRow cell origin cols row = Except.ok rd) rows rds ∧
      (slots'.filterMap id).Perm (rds ++ slots.filterMap id) := by
  intro rows
  induction rows with
  | nil =>
    intro i slots slots' h
    cases h
    exact ⟨[], List.Forall₂.nil, List.Perm.refl _⟩
  | cons row rest ih =>
    intro i slots slots' h
    unfold placeRows at h
    cases hpr : parseRow cell origin cols row with
    | error e => rw [hpr] at h; exact Except.noConfusion h
    | ok rd =>
      rw [hpr] at h
      dsimp only at h
      cases hj : slotOf cols row i with
      | error e => rw [hj] at h; exact Except.noConfusion h
      | ok j =>
        rw [hj] at h
        dsimp only at h
        by_cases hlt : j < slots.length
        · rw [dif_pos hlt] at h
          cases hget : slots.get ⟨j, hlt⟩ with
          | some prev => rw [hget] at h; exact Except.noConfusion h
          | none =>
            rw [hget] at h
            obtain ⟨rds, hall, hperm⟩ := ih (i + 1) (slots.set j (some rd)) slots' h
            refine ⟨rd :: rds, List.Forall₂.cons hpr hall, ?_⟩
            have hget? : slots.get? j = some none := by
              rw [List.get?_eq_get hlt, hget]
            have h1 := filterMap_id_set_perm slots j rd hget?
            have h2 : (rds ++ rd :: slots.filterMap id).Perm
                (rd :: (rds ++ slots.filterMap id)) := List.perm_middle
            exact (hperm.trans (List.Perm.append_left rds h1)).trans h2
        · rw [dif_neg hlt] at h
          exact Except.noConfusion h

theorem parseAtomRows_ok_perm (cell : UnitCell) (origin : Vec3) (cols : Line)
    (rows : List Line) (n : ℕ) (rds : List RowData)
    (h : parseAtomRows cell origin cols rows n = Except.ok rds) :
    ∃ rds', List.Forall₂
        (fun row rd => parseRow cell origin cols row = Except.ok rd) rows rds' ∧
      rds.Perm rds' := by
  unfold parseAtomRows at h
  cases hp : placeRows cell origin cols rows 0 (List.replicate n none) with
  | error e =>
    rw [hp] at h
    simp only [Except.bind, bind, Except.instMonad] at h
    exact Except.noConfusion h
  | ok slots =>
    rw [hp] at h
    simp only [Except.bind, bind, Except.instMonad] at h
    obtain ⟨rds', hall, hperm⟩ :=
      placeRows_ok_perm cell origin cols rows 0 (List.replicate n none) slots hp
    refine ⟨rds', hall, ?_⟩
    rw [extractSlots_ok_eq slots rds h]
    simpa [filterMap_id_replicate_none] using hperm

theorem map_eq_of_forall₂ {α β γ : Type} {R : α → β → Prop}
    {l₁ : List α} {l₂ : List β} (hall : List.Forall₂ R l₁ l₂)
    (f : α → γ) (g : β → γ) (hfg : ∀ a b, R a b → g b = f a) :
    l₂.map g = l₁.map f := by
  induction hall with
  | nil => rfl
  | cons hr _ ih => simp [ih, hfg _ _ hr]

/-! ## Per-row resolution lemmas -/

theorem resolveVelocity_missing_axis (cols row : Line) (v : Vec3)
    (h : resolveVelocity cols row = Except.ok v) :
    (hasCol cols "vx" = false → v.1 = 0) ∧
      (hasCol cols "vy" = false → v.2.1 = 0) ∧
      (hasCol cols "vz" = false → v.2.2 = 0) := by
  unfold resolveVelocity at h
  cases hx : numFieldD cols row "vx" 0 with
  | error e => rw [hx] at h; exact Except.noConfusion h
  | ok vx =>
    rw [hx] at h
    cases hy : numFieldD cols row "vy" 0 with
    | error e =>
      rw [hy] at h
      simp only [Except.bind, bind, Except.instMonad] at h
      exact Except.noConfusion h
    | ok vy =>
      cases hz : numFieldD cols row "vz" 0 with
      | error e =>
        rw [hy, hz] at h
        simp only [Except.bind, bind, Except.instMonad] at h
        exact Except.noConfusion h
      | ok vz =>
        rw [hy, hz] at h
        simp only [Except.bind, bind, Except.instMonad] at h
        cases h
        refine ⟨fun hc => ?_, fun hc => ?_, fun hc => ?_⟩
        · have := numFieldD_of_not_contains cols row "vx" 0 hc
          rw [this] at hx
          exact (Except.ok.inj hx).symm
        · have := numFieldD_of_not_contains cols row "vy" 0 hc
          rw [this] at hy
          exact (Except.ok.inj hy).symm
        · have := numFieldD_of_not_contains cols row "vz" 0 hc
          rw [this] at hz
          exact (Except.ok.inj hz).symm

theorem resolvePosition_scaled (cell : UnitCell) (origin : Vec3)
    (cols row : Line) (p : Vec3)
    (h1 : hasTriple cols "xu" "yu" "zu" = false)
    (h2 : hasTriple cols "x" "y" "z" = false)
    (h3 : hasTriple cols "xsu" "ysu" "zsu" = false)
    (h4 : hasTriple cols "xs" "ys" "zs" = true)
    (hix : hasCol cols "ix" = false) (hiy : hasCol cols "iy" = false)
    (hiz : hasCol cols "iz" = false)
    (h : resolvePosition cell origin cols row = Except.ok p) :
    p = origin + cell.fracToCart (colRatD cols row "xs" 0,
      colRatD cols row "ys" 0, colRatD cols row "zs" 0) := by
  unfold resolvePosition at h
  rw [h1, h2, h3, h4] at h
  simp only [Bool.false_eq_true, if_false, if_true] at h
  cases hx : numField cols row "xs" with
  | error e => rw [hx] at h; exact Except.noConfusion h
  | ok sx =>
    rw [hx] at h
    cases hy : numField cols row "ys" with
    | error e =>
      rw [hy] at h
      simp only [Except.bind, bind, Except.instMonad] at h
      exact Except.noConfusion h
    | ok sy =>
      cases hz : numField cols row "zs" with
      | error e =>
        rw [hy, hz] at h
        simp only [Except.bind, bind, Except.instMonad] at h
        exact Except.noConfusion h
      | ok sz =>
        rw [hy, hz,
          numFieldD_of_not_contains cols row "ix" 0 hix,
          numFieldD_of_not_contains cols row "iy" 0 hiy,
          numFieldD_of_not_contains cols row "iz" 0 hiz] at h
        simp only [Except.bind, bind, Except.instMonad] at h
        cases h
        have cx := (numField_ok_iff cols row "xs" sx).mp hx
        have cy := (numField_ok_iff cols row "ys" sy).mp hy
        have cz := (numField_ok_iff cols row "zs" sz).mp hz
        simp [colRatD, cx, cy, cz]

theorem resolvePosition_default (cell : UnitCell) (origin : Vec3)
    (cols row : Line)
    (h1 : hasTriple cols "xu" "yu" "zu" = false)
    (h2 : hasTriple cols "x" "y" "z" = false)
    (h3 : hasTriple cols "xsu" "ysu" "zsu" = false)
    (h4 : hasTriple cols "xs" "ys" "zs" = false) :
    resolvePosition cell origin cols row = Except.ok (0, 0, 0) := by
  unfold resolvePosition
  rw [h1, h2, h3, h4]
  simp

theorem colRatD_of_numField_ok (cols row : Line) (name : String) (d q : ℚ)
    (h : numField cols row name = Except.ok q) :
    colRatD cols row name d = q := by
  unfold colRatD
  rw [(numField_ok_iff cols row name q).mp h]
  rfl

theorem colRatD_of_numFieldD_ok (cols row : Line) (name : String) (d q : ℚ)
    (h : numFieldD cols row name d = Except.ok q) :
    colRatD cols row name d = q := by
  rcases (numFieldD_ok_iff cols row name d q).mp h with ⟨h1, h2⟩ | h1
  · unfold colRatD colRat
    rw [h1, h2]
    rfl
  · unfold colRatD
    rw [h1]
    rfl

theorem resolvePosition_xyz (cell : UnitCell) (origin : Vec3)
    (cols row : Line) (p : Vec3)
    (h1 : hasTriple cols "xu" "yu" "zu" = false)
    (h2 : hasTriple cols "x" "y" "z" = true)
    (h : resolvePosition cell origin cols row = Except.ok p) :
    p = (colRatD cols row "x" 0, colRatD cols row "y" 0,
        colRatD cols row "z" 0) +
      cell.imageShift (colRatD cols row "ix" 0, colRatD cols row "iy" 0,
        colRatD cols row "iz" 0) := by
  unfold resolvePosition at h
  rw [h1, h2] at h
  simp only [Bool.false_eq_true, if_false, if_true] at h
  cases hx : numField cols row "x" with
  | error e => rw [hx] at h; exact Except.noConfusion h
  | ok x =>
  rw [hx] at h
  cases hy : numField cols row "y" with
  | error e =>
    rw [hy] at h
    simp only [Except.bind, bind, Except.instMonad] at h
    exact Except.noConfusion h
  | ok y =>
  rw [hy] at h
  cases hz : numField cols row "z" with
  | error e =>
    rw [hz] at h
    simp only [Except.bind, bind, Except.instMonad] at h
    exact Except.noConfusion h
  | ok z =>
  rw [hz] at h
  cases hix : numFieldD cols row "ix" 0 with
  | error e =>
    rw [hix] at h
    simp only [Except.bind, bind, Except.instMonad] at h
    exact Except.noConfusion h
  | ok ix =>
  rw [hix] at h
  cases hiy : numFieldD cols row "iy" 0 with
  | error e =>
    rw [hiy] at h
    simp only [Except.bind, bind, Except.instMonad] at h
    exact Except.noConfusion h
  | ok iy =>
  rw [hiy] at h
  cases hiz : numFieldD cols row "iz" 0 with
  | error e =>
    rw [hiz] at h
    simp only [Except.bind, bind, Except.instMonad] at h
    exact Except.noConfusion h
  | ok iz =>
  rw [hiz] at h
  simp only [Except.bind, bind, Except.instMonad] at h
  cases h
  rw [colRatD_of_numField_ok cols row "x" 0 x hx,
    colRatD_of_numField_ok cols row "y" 0 y hy,
    colRatD_of_numField_ok cols row "z" 0 z hz,
    colRatD_of_numFieldD_ok cols row "ix" 0 ix hix,
    colRatD_of_numFieldD_ok cols row "iy" 0 iy hiy,
    colRatD_of_numFieldD_ok cols row "iz" 0 iz hiz]

theorem resolvePosition_xsu (cell : UnitCell) (origin : Vec3)
    (cols row : Line) (p : Vec3)
    (h1 : hasTriple cols "xu" "yu" "zu" = false)
    (h2 : hasTriple cols "x" "y" "z" = false)
    (h3 : hasTriple cols "xsu" "ysu" "zsu" = true)
    (h : resolvePosition cell origin cols row = Except.ok p) :
    p = origin + cell.fracToCart (colRatD cols row "xsu" 0,
      colRatD cols row "ysu" 0, colRatD cols row "zsu" 0) := by
  unfold resolvePosition at h
  rw [h1, h2, h3] at h
  simp only [Bool.false_eq_true, if_false, if_true] at h
  cases hx : numField cols row "xsu" with
  | error e => rw [hx] at h; exact Except.noConfusion h
  | ok sx =>
  rw [hx] at h
  cases hy : numField cols row "ysu" with
  | error e =>
    rw [hy] at h
    simp only [Except.bind, bind, Except.instMonad] at h
    exact Except.noConfusion h
  | ok sy =>
  rw [hy] at h
  cases hz : numField cols row "zsu" with
  | error e =>
    rw [hz] at h
    simp only [Except.bind, bind, Except.instMonad] at h
    exact Except.noConfusion h
  | ok sz =>
  rw [hz] at h
  simp only [Except.bind, bind, Except.instMonad] at h
  cases h
  rw [colRatD_of_numField_ok cols row "xsu" 0 sx hx,
    colRatD_of_numField_ok cols row "ysu" 0 sy hy,
    colRatD_of_numField_ok cols row "zsu" 0 sz hz]

theorem resolvePosition_xs (cell : UnitCell) (origin : Vec3)
    (cols row : Line) (p : Vec3)
    (h1 : hasTriple cols "xu" "yu" "zu" = false)
    (h2 : hasTriple cols "x" "y" "z" = false)
    (h3 : hasTriple cols "xsu" "ysu" "zsu" = false)
    (h4 : hasTriple cols "xs" "ys" "zs" = true)
    (h : resolvePosition cell origin cols row = Except.ok p) :
    p = origin + cell.fracToCart
      (colRatD cols row "xs" 0 + colRatD cols row "ix" 0,
       colRatD cols row "ys" 0 + colRatD cols row "iy" 0,
       colRatD cols row "zs" 0 + colRatD cols row "iz" 0) := by
  unfold resolvePosition at h
  rw [h1, h2, h3, h4] at h
  simp only [Bool.false_eq_true, if_false, if_true] at h
  cases hx : numField cols row "xs" with
  | error e => rw [hx] at h; exact Except.noConfusion h
  | ok sx =>
  rw [hx] at h
  cases hy : numField cols row "ys" with
  | error e =>
    rw [hy] at h
    simp only [Except.bind, bind, Except.instMonad] at h
    exact Except.noConfusion h
  | ok sy =>
  rw [hy] at h
  cases hz : numField cols row "zs" with
  | error e =>
    rw [hz] at h
    simp only [Except.bind, bind, Except.instMonad] at h
    exact Except.noConfusion h
  | ok sz =>
  rw [hz] at h
  cases hix : numFieldD cols row "ix" 0 with
  | error e =>
    rw [hix] at h
    simp only [Except.bind, bind, Except.instMonad] at h
    exact Except.noConfusion h
  | ok ix =>
  rw [hix] at h
  cases hiy : numFieldD cols row "iy" 0 with
  | error e =>
    rw [hiy] at h
    simp only [Except.bind, bind, Except.instMonad] at h
    exact Except.noConfusion h
  | ok iy =>
  rw [hiy] at h
  cases hiz : numFieldD cols row "iz" 0 with
  | error e =>
    rw [hiz] at h
    simp only [Except.bind, bind, Except.instMonad] at h
    exact Except.noConfusion h
  | ok iz =>
  rw [hiz] at h
  simp only [Except.bind, bind, Except.instMonad] at h
  cases h
  rw [colRatD_of_numField_ok cols row "xs" 0 sx hx,
    colRatD_of_numField_ok cols row "ys" 0 sy hy,
    colRatD_of_numField_ok cols row "zs" 0 sz hz,
    colRatD_of_numFieldD_ok cols row "ix" 0 ix hix,
    colRatD_of_numFieldD_ok cols row "iy" 0 iy hiy,
    colRatD_of_numFieldD_ok cols row "iz" 0 iz hiz]

/-! ## Column-permutation congruence -/

theorem hasCol_eq_of_perm {cols₁ cols₂ : Line} (p : cols₁.Perm cols₂)
    (name : String) : hasCol cols₁ name = hasCol cols₂ name := by
  unfold hasCol
  by_cases hm : name ∈ cols₁
  · have h1 : cols₁.contains name = true := List.elem_eq_true_of_mem hm
    have h2 : cols₂.contains name = true :=
      List.elem_eq_true_of_mem (p.mem_iff.mp hm)
    rw [h1, h2]
  · have hm2 : name ∉ cols₂ := fun hx => hm (p.mem_iff.mpr hx)
    have h1 : cols₁.contains name = false := by
      cases hc : cols₁.contains name with
      | false => rfl
      | true => exact absurd (List.mem_of_elem_eq_true hc) hm
    have h2 : cols₂.contains name = false := by
      cases hc : cols₂.contains name with
      | false => rfl
      | true => exact absurd (List.mem_of_elem_eq_true hc) hm2
    rw [h1, h2]

theorem colVal_eq_of_zip_perm {cols₁ cols₂ r₁ r₂ : Line}
    (nd : cols₁.Nodup) (hl₁ : r₁.length = cols₁.length)
    (hzip : (cols₁.zip r₁).Perm (cols₂.zip r₂)) (name : String) :
    colVal cols₁ r₁ name = colVal cols₂ r₂ name := by
  unfold colVal
  apply lookup_perm_of_nodup_keys hzip
  rw [List.map_fst_zip cols₁ r₁ (le_of_eq hl₁.symm)]
  exact nd

theorem parseRow_congr (cell : UnitCell) (origin : Vec3)
    {cols₁ cols₂ r₁ r₂ : Line}
    (nd : cols₁.Nodup) (hp : cols₁.Perm cols₂)
    (hl₁ : r₁.length = cols₁.length) (hl₂ : r₂.length = cols₂.length)
    (hzip : (cols₁.zip r₁).Perm (cols₂.zip r₂)) :
    parseRow cell origin cols₁ r₁ = parseRow cell origin cols₂ r₂ := by
  have hcv := colVal_eq_of_zip_perm nd hl₁ hzip
  have hhc := hasCol_eq_of_perm hp
  have hcl : cols₁.length = cols₂.length := hp.length_eq
  unfold parseRow resolveAtom resolvePosition resolveVelocity
  simp only [hasTriple, numField, numFieldD, UnitCell.imageShift, hcv, hhc,
    hl₁, hl₂, hcl]

theorem slotOf_congr {cols₁ cols₂ r₁ r₂ : Line} (i : ℕ)
    (nd : cols₁.Nodup) (hl₁ : r₁.length = cols₁.length)
    (hzip : (cols₁.zip r₁).Perm (cols₂.zip r₂)) :
    slotOf cols₁ r₁ i = slotOf cols₂ r₂ i := by
  have hcv := colVal_eq_of_zip_perm nd hl₁ hzip
  unfold slotOf
  simp only [hcv]

/-- The pointwise relation between two data lines whose fields have been
permuted along with the column-name list. -/
def RowsPermuted (cols₁ cols₂ : Line) (r₁ r₂ : Line) : Prop :=
  r₁.length = cols₁.length ∧ r₂.length = cols₂.length ∧
    (cols₁.zip r₁).Perm (cols₂.zip r₂)

theorem placeRows_congr (cell : UnitCell) (origin : Vec3)
    {cols₁ cols₂ : Line} {rows₁ rows₂ : List Line}
    (nd : cols₁.Nodup) (hp : cols₁.Perm cols₂)
    (hall : List.Forall₂ (RowsPermuted cols₁ cols₂) rows₁ rows₂) :
    ∀ (i : ℕ) (slots : List (Option RowData)),
    placeRows cell origin cols₁ rows₁ i slots =
      placeRows cell origin cols₂ rows₂ i slots := by
  induction hall with
  | nil => intro i slots; rfl
  | cons hr hrest ih =>
    intro i slots
    obtain ⟨hl₁, hl₂, hzip⟩ := hr
    conv_lhs => rw [placeRows]
    conv_rhs => rw [placeRows]
    rw [← parseRow_congr cell origin nd hp hl₁ hl₂ hzip,
      ← slotOf_congr i nd hl₁ hzip]
    cases parseRow cell origin cols₁ _ with
    | error e => rfl
    | ok rd =>
      dsimp only
      cases slotOf cols₁ _ i with
      | error e => rfl
      | ok j =>
        dsimp only
        by_cases hj : j < slots.length
        · simp only [dif_pos hj]
          cases slots.get ⟨j, hj⟩ with
          | some prev => rfl
          | none => exact ih (i + 1) (slots.set j (some rd))
        · simp only [dif_neg hj]

theorem parseAtomRows_congr (cell : UnitCell) (origin : Vec3)
    {cols₁ cols₂ : Line} {rows₁ rows₂ : List Line} (n : ℕ)
    (nd : cols₁.Nodup) (hp : cols₁.Perm cols₂)
    (hall : List.Forall₂ (RowsPermuted cols₁ cols₂) rows₁ rows₂) :
    parseAtomRows cell origin cols₁ rows₁ n =
      parseAtomRows cell origin cols₂ rows₂ n := by
  unfold parseAtomRows
  rw [placeRows_congr cell origin nd hp hall 0 (List.replicate n none)]

theorem forall₂_mem_right {α β : Type} {R : α → β → Prop}
    {l₁ : List α} {l₂ : List β} (h : List.Forall₂ R l₁ l₂) {b : β}
    (hb : b ∈ l₂) : ∃ a ∈ l₁, R a b := by
  induction h with
  | nil => cases hb
  | cons hr hrest ih =>
    rcases List.mem_cons.mp hb with hb1 | hb2
    · exact ⟨_, List.mem_cons_self _ _, hb1 ▸ hr⟩
    · obtain ⟨a, ha, hra⟩ := ih hb2
      exact ⟨a, List.mem_cons_of_mem _ ha, hra⟩

/-! ## Step-structure lemmas -/

theorem readOptionals_split :
    ∀ (lines : List Line) (st st' : OptHeader) (rest : List Line),
    readOptionals lines st = Except.ok (st', rest) →
    ∃ pre, lines = pre ++ rest ∧
      (st'.units = st.units ∨
        ∃ l ∈ pre, itemKind? l = some ItemKind.units) ∧
      (st'.time = st.time ∨ ∃ l ∈ pre, itemKind? l = some ItemKind.time) := by
  intro lines st
  induction lines, st using readOptionals.induct with
  | case1 st =>
    intro st' rest h
    rw [readOptionals] at h
    cases h
    exact ⟨[], rfl, Or.inl rfl, Or.inl rfl⟩
  | case2 l st hik =>
    intro st' rest h
    rw [readOptionals, hik] at h
    exact Except.noConfusion h
  | case3 l st hik v rest2 ih =>
    intro st' rest h
    rw [readOptionals, hik] at h
    obtain ⟨pre', heq, hu, ht⟩ := ih st' rest h
    refine ⟨l :: v :: pre', by simp [heq], Or.inr ⟨l, by simp, hik⟩, ?_⟩
    rcases ht with ht | ⟨l', hl', hm⟩
    · exact Or.inl ht
    · exact Or.inr ⟨l', by simp [hl'], hm⟩
  | case4 l st hik =>
    intro st' rest h
    rw [readOptionals, hik] at h
    exact Except.noConfusion h
  | case5 l st hik v rest2 hpt =>
    intro st' rest h
    rw [readOptionals, hik] at h
    dsimp only at h
    rw [hpt] at h
    exact Except.noConfusion h
  | case6 l st hik v rest2 q hpt ih =>
    intro st' rest h
    rw [readOptionals, hik] at h
    dsimp only at h
    rw [hpt] at h
    obtain ⟨pre', heq, hu, ht⟩ := ih st' rest h
    refine ⟨l :: v :: pre', by simp [heq], ?_, Or.inr ⟨l, by simp, hik⟩⟩
    rcases hu with hu | ⟨l', hl', hm⟩
    · exact Or.inl hu
    · exact Or.inr ⟨l', by simp [hl'], hm⟩
  | case7 l rest₀ st hnu hnt =>
    intro st' rest h
    cases rest₀ with
    | nil =>
      rw [readOptionals] at h
      cases hik : itemKind? l with
      | none =>
        rw [hik] at h
        cases h
        exact ⟨[], rfl, Or.inl rfl, Or.inl rfl⟩
      | some k =>
        rw [hik] at h
        cases k with
        | units => exact absurd hik hnu
        | time => exact absurd hik hnt
        | timestep => cases h; exact ⟨[], rfl, Or.inl rfl, Or.inl rfl⟩
        | numAtoms => cases h; exact ⟨[], rfl, Or.inl rfl, Or.inl rfl⟩
        | boxBounds flags => cases h; exact ⟨[], rfl, Or.inl rfl, Or.inl rfl⟩
        | atoms cols => cases h; exact ⟨[], rfl, Or.inl rfl, Or.inl rfl⟩
        | other tok => cases h; exact ⟨[], rfl, Or.inl rfl, Or.inl rfl⟩
    | cons v rest2 =>
      rw [readOptionals] at h
      cases hik : itemKind? l with
      | none =>
        rw [hik] at h
        cases h
        exact ⟨[], rfl, Or.inl rfl, Or.inl rfl⟩
      | some k =>
        rw [hik] at h
        cases k with
        | units => exact absurd hik hnu
        | time => exact absurd hik hnt
        | timestep => cases h; exact ⟨[], rfl, Or.inl rfl, Or.inl rfl⟩
        | numAtoms => cases h; exact ⟨[], rfl, Or.inl rfl, Or.inl rfl⟩
        | boxBounds flags => cases h; exact ⟨[], rfl, Or.inl rfl, Or.inl rfl⟩
        | atoms cols => cases h; exact ⟨[], rfl, Or.inl rfl, Or.inl rfl⟩
        | other tok => cases h; exact ⟨[], rfl, Or.inl rfl, Or.inl rfl⟩

theorem expectTimestep_split (lines : List Line) (ts : ℤ) (rest : List Line)
    (h : expectTimestep lines = Except.ok (ts, rest)) :
    ∃ pre, lines = pre ++ rest ∧ pre.length = 2 := by
  unfold expectTimestep at h
  cases lines with
  | nil => exact Except.noConfusion h
  | cons l rest₀ =>
    dsimp only at h
    cases hik : itemKind? l with
    | none => rw [hik] at h; exact Except.noConfusion h
    | some k =>
      rw [hik] at h
      cases k with
      | timestep =>
        cases rest₀ with
        | nil => exact Except.noConfusion h
        | cons v rest₂ =>
          dsimp only at h
          cases hit : parseIntTok (v.headD "") with
          | none => rw [hit] at h; exact Except.noConfusion h
          | some ts' =>
            rw [hit] at h
            cases h
            exact ⟨[l, v], rfl, rfl⟩
      | numAtoms => exact Except.noConfusion h
      | units => exact Except.noConfusion h
      | time => exact Except.noConfusion h
      | boxBounds flags => exact Except.noConfusion h
      | atoms cols => exact Except.noConfusion h
      | other tok => exact Except.noConfusion h

theorem expectNumAtoms_split (lines : List Line) (n : ℕ) (rest : List Line)
    (h : expectNumAtoms lines = Except.ok (n, rest)) :
    ∃ pre, lines = pre ++ rest ∧ pre.length = 2 := by
  unfold expectNumAtoms at h
  cases lines with
  | nil => exact Except.noConfusion h
  | cons l rest₀ =>
    dsimp only at h
    cases hik : itemKind? l with
    | none => rw [hik] at h; exact Except.noConfusion h
    | some k =>
      rw [hik] at h
      cases k with
      | numAtoms =>
        cases rest₀ with
        | nil => exact Except.noConfusion h
        | cons v rest₂ =>
          dsimp only at h
          cases hit : parseNatTok (v.headD "") with
          | none => rw [hit] at h; exact Except.noConfusion h
          | some n' =>
            rw [hit] at h
            cases h
            exact ⟨[l, v], rfl, rfl⟩
      | timestep => exact Except.noConfusion h
      | units => exact Except.noConfusion h
      | time => exact Except.noConfusion h
      | boxBounds flags => exact Except.noConfusion h
      | atoms cols => exact Except.noConfusion h
      | other tok => exact Except.noConfusion h

theorem readBoxBody_split (flags : Line) (lines : List Line)
    (cell : UnitCell) (origin : Vec3) (rest : List Line)
    (h : readBoxBody flags lines = Except.ok (cell, origin, rest)) :
    ∃ pre, lines = pre ++ rest ∧ pre.length = 3 := by
  unfold readBoxBody at h
  cases lines with
  | nil => exact Except.noConfusion h
  | cons l1 rest₁ =>
    cases rest₁ with
    | nil => exact Except.noConfusion h
    | cons l2 rest₂ =>
      cases rest₂ with
      | nil => exact Except.noConfusion h
      | cons l3 rest₃ =>
        dsimp only at h
        cases h1 : parseBoxLine (if boxIsTriclinic flags then 3 else 2) l1 with
        | error e => rw [h1] at h; exact Except.noConfusion h
        | ok v1 =>
          rw [h1] at h
          cases h2 : parseBoxLine (if boxIsTriclinic flags then 3 else 2) l2 with
          | error e =>
            rw [h2] at h
            simp only [Except.bind, bind, Except.instMonad] at h
            exact Except.noConfusion h
          | ok v2 =>
            cases h3 : parseBoxLine (if boxIsTriclinic flags then 3 else 2) l3 with
            | error e =>
              rw [h2, h3] at h
              simp only [Except.bind, bind, Except.instMonad] at h
              exact Except.noConfusion h
            | ok v3 =>
              rw [h2, h3] at h
              simp only [Except.bind, bind, Except.instMonad] at h
              cases h
              exact ⟨[l1, l2, l3], rfl, rfl⟩

theorem expectBox_split (lines : List Line) (cell : UnitCell) (origin : Vec3)
    (rest : List Line) (h : expectBox lines = Except.ok (cell, origin, rest)) :
    ∃ pre, lines = pre ++ rest ∧ pre.length = 4 := by
  unfold expectBox at h
  cases lines with
  | nil => exact Except.noConfusion h
  | cons l rest₀ =>
    dsimp only at h
    cases hik : itemKind? l with
    | none => rw [hik] at h; exact Except.noConfusion h
    | some k =>
      rw [hik] at h
      cases k with
      | boxBounds flags =>
        dsimp only at h
        obtain ⟨pre', heq, hlen⟩ :=
          readBoxBody_split flags rest₀ cell origin rest h
        exact ⟨l :: pre', by simp [heq], by simp [hlen]⟩
      | timestep => exact Except.noConfusion h
      | numAtoms => exact Except.noConfusion h
      | units => exact Except.noConfusion h
      | time => exact Except.noConfusion h
      | atoms cols => exact Except.noConfusion h
      | other tok => exact Except.noConfusion h

theorem expectAtoms_split (lines : List Line) (cols : Line)
    (rest : List Line) (h : expectAtoms lines = Except.ok (cols, rest)) :
    ∃ pre, lines = pre ++ rest ∧ pre.length = 1 := by
  unfold expectAtoms at h
  cases lines with
  | nil => exact Except.noConfusion h
  | cons l rest₀ =>
    dsimp only at h
    cases hik : itemKind? l with
    | none => rw [hik] at h; exact Except.noConfusion h
    | some k =>
      rw [hik] at h
      cases k with
      | atoms cols' => dsimp only at h; cases h; exact ⟨[l], rfl, rfl⟩
      | timestep => exact Except.noConfusion h
      | numAtoms => exact Except.noConfusion h
      | units => exact Except.noConfusion h
      | time => exact Except.noConfusion h
      | boxBounds flags => exact Except.noConfusion h
      | other tok => exact Except.noConfusion h

theorem propsOf_lookup_units (oh : OptHeader) :
    (propsOf oh).lookup "lammps_units" = oh.units.map Property.str := by
  obtain ⟨u, t⟩ := oh
  cases u <;> cases t <;> rfl

theorem propsOf_lookup_time (oh : OptHeader) :
    (propsOf oh).lookup "time" = oh.time.map Property.double := by
  obtain ⟨u, t⟩ := oh
  cases u <;> cases t <;> rfl

theorem parseStep_split (lines : List Line) (f : Frame) (rest : List Line)
    (h : parseStep lines = Except.ok (f, rest)) :
    ∃ pre, lines = pre ++ rest ∧ 0 < pre.length ∧
      (f.get? "lammps_units" = none ∨
        ∃ l ∈ pre, itemKind? l = some ItemKind.units) ∧
      (f.get? "time" = none ∨ ∃ l ∈ pre, itemKind? l = some ItemKind.time) := by
  unfold parseStep at h
  cases e1 : readOptionals lines {} with
  | error e => rw [e1] at h; exact Except.noConfusion h
  | ok p1 =>
  obtain ⟨oh1, r1⟩ := p1
  rw [e1] at h
  simp only [Except.bind, bind, Except.instMonad] at h
  cases e2 : expectTimestep r1 with
  | error e => rw [e2] at h; exact Except.noConfusion h
  | ok p2 =>
  obtain ⟨ts, r2⟩ := p2
  rw [e2] at h
  simp only [Except.bind, bind, Except.instMonad] at h
  cases e3 : readOptionals r2 oh1 with
  | error e => rw [e3] at h; exact Except.noConfusion h
  | ok p3 =>
  obtain ⟨oh2, r3⟩ := p3
  rw [e3] at h
  simp only [Except.bind, bind, Except.instMonad] at h
  cases e4 : expectNumAtoms r3 with
  | error e => rw [e4] at h; exact Except.noConfusion h
  | ok p4 =>
  obtain ⟨n, r4⟩ := p4
  rw [e4] at h
  simp only [Except.bind, bind, Except.instMonad] at h
  cases e5 : readOptionals r4 oh2 with
  | error e => rw [e5] at h; exact Except.noConfusion h
  | ok p5 =>
  obtain ⟨oh3, r5⟩ := p5
  rw [e5] at h
  simp only [Except.bind, bind, Except.instMonad] at h
  cases e6 : expectBox r5 with
  | error e => rw [e6] at h; exact Except.noConfusion h
  | ok p6 =>
  obtain ⟨cell, origin, r6⟩ := p6
  rw [e6] at h
  simp only [Except.bind, bind, Except.instMonad] at h
  cases e7 : readOptionals r6 oh3 with
  | error e => rw [e7] at h; exact Except.noConfusion h
  | ok p7 =>
  obtain ⟨oh4, r7⟩ := p7
  rw [e7] at h
  simp only [Except.bind, bind, Except.instMonad] at h
  cases e8 : expectAtoms r7 with
  | error e => rw [e8] at h; exact Except.noConfusion h
  | ok p8 =>
  obtain ⟨cols, r8⟩ := p8
  rw [e8] at h
  simp only [Except.bind, bind, Except.instMonad] at h
  by_cases hn : (r8.take n).length < n
  · rw [if_pos hn] at h
    exact Except.noConfusion h
  · rw [if_neg hn] at h
    cases e9 : parseAtomRows cell origin cols (r8.take n) n with
    | error e => rw [e9] at h; exact Except.noConfusion h
    | ok rds =>
    rw [e9] at h
    simp only [Except.bind, bind, Except.instMonad] at h
    injection h with hpair
    injection hpair with hf hrest
    subst hrest
    subst hf
    obtain ⟨q1, hq1, u1, t1⟩ := readOptionals_split lines {} oh1 r1 e1
    obtain ⟨q2, hq2, _⟩ := expectTimestep_split r1 ts r2 e2
    obtain ⟨q3, hq3, u3, t3⟩ := readOptionals_split r2 oh1 oh2 r3 e3
    obtain ⟨q4, hq4, hq4len⟩ := expectNumAtoms_split r3 n r4 e4
    obtain ⟨q5, hq5, u5, t5⟩ := readOptionals_split r4 oh2 oh3 r5 e5
    obtain ⟨q6, hq6, _⟩ := expectBox_split r5 cell origin r6 e6
    obtain ⟨q7, hq7, u7, t7⟩ := readOptionals_split r6 oh3 oh4 r7 e7
    obtain ⟨q8, hq8, _⟩ := expectAtoms_split r7 cols r8 e8
    refine ⟨q1 ++ (q2 ++ (q3 ++ (q4 ++ (q5 ++ (q6 ++ (q7 ++ (q8 ++
      r8.take n))))))), ?_, ?_, ?_, ?_⟩
    · rw [hq1, hq2, hq3, hq4, hq5, hq6, hq7, hq8]
      simp only [List.append_assoc, List.take_append_drop]
    · simp only [List.length_append, hq4len]
      omega
    · have hget : (propsOf oh4).lookup "lammps_units" =
          oh4.units.map Property.str := propsOf_lookup_units oh4
      cases hu : oh4.units with
      | none =>
        refine Or.inl ?_
        show (propsOf oh4).lookup "lammps_units" = none
        rw [hget, hu]
        rfl
      | some u =>
        refine Or.inr ?_
        have hsome : ∃ l, (l ∈ q1 ∨ l ∈ q3 ∨ l ∈ q5 ∨ l ∈ q7) ∧
            itemKind? l = some ItemKind.units := by
          rcases u7 with h7 | ⟨l, hl, hm⟩
          · rcases u5 with h5 | ⟨l, hl, hm⟩
            · rcases u3 with h3 | ⟨l, hl, hm⟩
              · rcases u1 with h1 | ⟨l, hl, hm⟩
                · rw [h7, h5, h3, h1] at hu
                  exact Option.noConfusion hu
                · exact ⟨l, Or.inl hl, hm⟩
              · exact ⟨l, Or.inr (Or.inl hl), hm⟩
            · exact ⟨l, Or.inr (Or.inr (Or.inl hl)), hm⟩
          · exact ⟨l, Or.inr (Or.inr (Or.inr hl)), hm⟩
        obtain ⟨l, hl, hm⟩ := hsome
        refine ⟨l, ?_, hm⟩
        rcases hl with h | h | h | h
        · exact List.mem_append_left _ h
        · exact List.mem_append_right _ (List.mem_append_right _
            (List.mem_append_left _ h))
        · exact List.mem_append_right _ (List.mem_append_right _
            (List.mem_append_right _ (List.mem_append_right _
              (List.mem_append_left _ h))))
        · exact List.mem_append_right _ (List.mem_append_right _
            (List.mem_append_right _ (List.mem_append_right _
              (List.mem_append_right _ (List.mem_append_right _
                (List.mem_append_left _ h))))))
    · have hget : (propsOf oh4).lookup "time" =
          oh4.time.map Property.double := propsOf_lookup_time oh4
      cases hu : oh4.time with
      | none =>
        refine Or.inl ?_
        show (propsOf oh4).lookup "time" = none
        rw [hget, hu]
        rfl
      | some u =>
        refine Or.inr ?_
        have hsome : ∃ l, (l ∈ q1 ∨ l ∈ q3 ∨ l ∈ q5 ∨ l ∈ q7) ∧
            itemKind? l = some ItemKind.time := by
          rcases t7 with h7 | ⟨l, hl, hm⟩
          · rcases t5 with h5 | ⟨l, hl, hm⟩
            · rcases t3 with h3 | ⟨l, hl, hm⟩
              · rcases t1 with h1 | ⟨l, hl, hm⟩
                · rw [h7, h5, h3, h1] at hu
                  exact Option.noConfusion hu
                · exact ⟨l, Or.inl hl, hm⟩
              · exact ⟨l, Or.inr (Or.inl hl), hm⟩
            · exact ⟨l, Or.inr (Or.inr (Or.inl hl)), hm⟩
          · exact ⟨l, Or.inr (Or.inr (Or.inr hl)), hm⟩
        obtain ⟨l, hl, hm⟩ := hsome
        refine ⟨l, ?_, hm⟩
        rcases hl with h | h | h | h
        · exact List.mem_append_left _ h
        · exact List.mem_append_right _ (List.mem_append_right _
            (List.mem_append_left _ h))
        · exact List.mem_append_right _ (List.mem_append_right _
            (List.mem_append_right _ (List.mem_append_right _
              (List.mem_append_left _ h))))
        · exact List.mem_append_right _ (List.mem_append_right _
            (List.mem_append_right _ (List.mem_append_right _
              (List.mem_append_right _ (List.mem_append_right _
                (List.mem_append_left _ h))))))

/-! ## Step-index lemmas -/

theorem parseStep_rest_length (lines : List Line) (f : Frame)
    (rest : List Line) (h : parseStep lines = Except.ok (f, rest)) :
    rest.length < lines.length := by
  obtain ⟨pre, heq, hpos, _⟩ := parseStep_split lines f rest h
  rw [heq]
  simp only [List.length_append]
  omega

theorem stepSuffixesAux_congr :
    ∀ (fuel₁ fuel₂ : ℕ) (lines : List Line),
    lines.length < fuel₁ → lines.length < fuel₂ →
    stepSuffixesAux fuel₁ lines = stepSuffixesAux fuel₂ lines := by
  intro fuel₁
  induction fuel₁ with
  | zero =>
    intro fuel₂ lines h1 h2
    exact absurd h1 (Nat.not_lt_zero _)
  | succ f₁ ih =>
    intro fuel₂ lines h1 h2
    cases fuel₂ with
    | zero => exact absurd h2 (Nat.not_lt_zero _)
    | succ f₂ =>
      conv_lhs => rw [stepSuffixesAux]
      conv_rhs => rw [stepSuffixesAux]
      cases hp : parseStep lines with
      | error e => rfl
      | ok p =>
        obtain ⟨f, rest⟩ := p
        have hlt := parseStep_rest_length lines f rest hp
        dsimp only
        rw [ih f₂ rest (by omega) (by omega)]

theorem stepSuffixes_eq (lines : List Line) :
    stepSuffixes lines =
      match parseStep lines with
      | Except.error _ => []
      | Except.ok (_, rest) => lines :: stepSuffixes rest := by
  unfold stepSuffixes
  conv_lhs => rw [stepSuffixesAux]
  cases hp : parseStep lines with
  | error e => rfl
  | ok p =>
    obtain ⟨f, rest⟩ := p
    have hlt := parseStep_rest_length lines f rest hp
    dsimp only
    rw [stepSuffixesAux_congr lines.length (rest.length + 1) rest (by omega)
      (by omega)]

theorem stepSuffixes_get_succ :
    ∀ (i : ℕ) (lines s : List Line),
    (stepSuffixes lines).get? i = some s →
    ∃ f rest, parseStep s = Except.ok (f, rest) ∧
      (stepSuffixes lines).get? (i + 1) = (stepSuffixes rest).get? 0 := by
  intro i
  induction i with
  | zero =>
    intro lines s h
    rw [stepSuffixes_eq lines] at h
    cases hp : parseStep lines with
    | error e => rw [hp] at h; exact Option.noConfusion h
    | ok p =>
      obtain ⟨f0, rest0⟩ := p
      rw [hp] at h
      dsimp only at h
      injection h with hs
      subst hs
      refine ⟨f0, rest0, hp, ?_⟩
      rw [stepSuffixes_eq lines, hp]
      rfl
  | succ i ih =>
    intro lines s h
    rw [stepSuffixes_eq lines] at h
    cases hp : parseStep lines with
    | error e => rw [hp] at h; exact Option.noConfusion h
    | ok p =>
      obtain ⟨f0, rest0⟩ := p
      rw [hp] at h
      dsimp only at h
      obtain ⟨f, rest, hps, hnext⟩ := ih rest0 s h
      refine ⟨f, rest, hps, ?_⟩
      rw [stepSuffixes_eq lines, hp]
      exact hnext

theorem extendCacheAux_spec (lines : List Line) :
    ∀ (fuel : ℕ) (cache : List (List Line)),
    cache = (stepSuffixes lines).take cache.length →
    extendCacheAux lines fuel cache =
      (stepSuffixes lines).take (cache.length + fuel) := by
  intro fuel
  induction fuel with
  | zero =>
    intro cache hc
    rw [extendCacheAux, Nat.add_zero]
    exact hc
  | succ fuel ih =>
    intro cache hc
    cases hlast : cache.getLast? with
    | none =>
      have hcache : cache = [] := by
        cases cache with
        | nil => rfl
        | cons a t => simp [List.getLast?] at hlast
      subst hcache
      rw [extendCacheAux]
      dsimp only [List.getLast?]
      cases hp : parseStep lines with
      | error e =>
        have hS : stepSuffixes lines = [] := by
          rw [stepSuffixes_eq lines, hp]
        simp [hS]
      | ok p =>
        have hS : stepSuffixes lines = lines :: stepSuffixes p.2 := by
          rw [stepSuffixes_eq lines, hp]
        have h1 : ([lines] : List (List Line)) =
            (stepSuffixes lines).take ([lines] : List (List Line)).length := by
          rw [hS]
          rfl
        dsimp only
        rw [ih [lines] h1]
        congr 1
        simp only [List.length_cons, List.length_nil]
        omega
    | some s =>
      have hne : cache ≠ [] := by
        intro hc0
        rw [hc0] at hlast
        exact Option.noConfusion hlast
      have hk : 0 < cache.length := List.length_pos.mpr hne
      have hlenle : cache.length ≤ (stepSuffixes lines).length := by
        have hlen := congrArg List.length hc
        rw [List.length_take] at hlen
        omega
      have hgetlast : cache.get? (cache.length - 1) = some s := by
        rw [← List.getLast?_eq_get?]
        exact hlast
      have hstep : cache.get? (cache.length - 1) =
          (stepSuffixes lines).get? (cache.length - 1) := by
        have h2 := congrArg (fun l => List.get? l (cache.length - 1)) hc
        dsimp only at h2
        rw [h2, List.get?_take (by omega)]
      have hsS : (stepSuffixes lines).get? (cache.length - 1) = some s := by
        rw [hstep] at hgetlast
        exact hgetlast
      obtain ⟨f, rest, hps, hnext⟩ :=
        stepSuffixes_get_succ (cache.length - 1) lines s hsS
      have hsucc : (stepSuffixes lines).get? cache.length =
          (stepSuffixes rest).get? 0 := by
        have harith : cache.length - 1 + 1 = cache.length := by omega
        rw [← harith]
        exact hnext
      rw [extendCacheAux, hlast]
      dsimp only
      rw [hps]
      dsimp only
      cases hpr : parseStep rest with
      | error e =>
        dsimp only
        have h0 : (stepSuffixes rest).get? 0 = none := by
          rw [stepSuffixes_eq rest, hpr]
          rfl
        have hnone : (stepSuffixes lines).get? cache.length = none := by
          rw [hsucc, h0]
        have hSlen : (stepSuffixes lines).length ≤ cache.length :=
          List.get?_eq_none.mp hnone
        have hCS : cache = stepSuffixes lines := by
          rw [hc, List.take_all_of_le hSlen]
        rw [hCS]
        rw [List.take_all_of_le (by omega :
          (stepSuffixes lines).length ≤
            (stepSuffixes lines).length + (fuel + 1))]
      | ok pr =>
        dsimp only
        have h0 : (stepSuffixes rest).get? 0 = some rest := by
          rw [stepSuffixes_eq rest, hpr]
          rfl
        have hgetk : (stepSuffixes lines).get? cache.length = some rest := by
          rw [hsucc, h0]
        have h1 : cache ++ [rest] =
            (stepSuffixes lines).take (cache ++ [rest]).length := by
          rw [List.length_append]
          show cache ++ [rest] = (stepSuffixes lines).take (cache.length + 1)
          have hgetk' : (stepSuffixes lines)[cache.length]? = some rest := by
            rw [← List.get?_eq_getElem?]
            exact hgetk
          rw [List.take_succ, ← hc, hgetk']
          rfl
        rw [ih (cache ++ [rest]) h1]
        congr 1
        simp only [List.length_append, List.length_cons, List.length_nil]
        omega

/-! ## Trajectory-layer lemmas -/

theorem readStep_spec (t : Trajectory) (n : ℕ) (h : CacheOK t) :
    (t.readStep n).1 = readStepPureT t.lines t.override n ∧
    (t.readStep n).2 =
      { t with
        cache := (stepSuffixes t.lines).take
          (t.cache.length + (n + 1 - t.cache.length)) } ∧
    CacheOK (t.readStep n).2 := by
  have hc := extendCacheAux_spec t.lines (n + 1 - t.cache.length) t.cache h
  have hget : (extendCacheAux t.lines (n + 1 - t.cache.length) t.cache).get? n =
      (stepSuffixes t.lines).get? n := by
    rw [hc]
    exact List.get?_take (by omega)
  have htake : (stepSuffixes t.lines).take
      (t.cache.length + (n + 1 - t.cache.length)) =
      (stepSuffixes t.lines).take ((stepSuffixes t.lines).take
        (t.cache.length + (n + 1 - t.cache.length))).length := by
    rw [List.length_take]
    rcases le_total (t.cache.length + (n + 1 - t.cache.length))
      (stepSuffixes t.lines).length with hle | hle
    · rw [min_eq_left hle]
    · rw [min_eq_right hle, List.take_of_length_le hle, List.take_length]
  cases hg : (stepSuffixes t.lines).get? n with
  | some s =>
    have hcg : (extendCacheAux t.lines (n + 1 - t.cache.length)
        t.cache).get? n = some s := by rw [hget, hg]
    have hstep : t.readStep n =
        (((parseStep s).map Prod.fst).bind (mergeTopology t.override),
         { t with
            cache :=
              extendCacheAux t.lines (n + 1 - t.cache.length) t.cache }) := by
      unfold Trajectory.readStep
      rw [hcg]
    refine ⟨?_, ?_, ?_⟩
    · rw [hstep]
      unfold readStepPureT readStepPure
      rw [hg]
    · rw [hstep, hc]
    · rw [hstep]
      show extendCacheAux t.lines (n + 1 - t.cache.length) t.cache =
        (stepSuffixes t.lines).take
          (extendCacheAux t.lines (n + 1 - t.cache.length) t.cache).length
      rw [hc]
      exact htake
  | none =>
    have hcg : (extendCacheAux t.lines (n + 1 - t.cache.length)
        t.cache).get? n = none := by rw [hget, hg]
    have hstep : t.readStep n =
        (Except.error (ParseError.file rangeMsg),
         { t with
            cache :=
              extendCacheAux t.lines (n + 1 - t.cache.length) t.cache }) := by
      unfold Trajectory.readStep
      rw [hcg]
    refine ⟨?_, ?_, ?_⟩
    · rw [hstep]
      unfold readStepPureT readStepPure
      rw [hg]
      rfl
    · rw [hstep, hc]
    · rw [hstep]
      show extendCacheAux t.lines (n + 1 - t.cache.length) t.cache =
        (stepSuffixes t.lines).take
          (extendCacheAux t.lines (n + 1 - t.cache.length) t.cache).length
      rw [hc]
      exact htake

theorem runReads_spec :
    ∀ (ns : List ℕ) (t : Trajectory), CacheOK t →
      runReads t ns = ns.map (readStepPureT t.lines t.override) := by
  intro ns
  induction ns with
  | nil => intro t h; rfl
  | cons n rest ih =>
    intro t h
    obtain ⟨h1, h2, h3⟩ := readStep_spec t n h
    have hrun : runReads t (n :: rest) =
        (t.readStep n).1 :: runReads (t.readStep n).2 rest := by
      rw [runReads]
    rw [hrun, h1, ih (t.readStep n).2 h3, List.map_cons, h2]

theorem stepSuffixesAux_length_le :
    ∀ (fuel : ℕ) (lines : List Line),
      (stepSuffixesAux fuel lines).length ≤ fuel := by
  intro fuel
  induction fuel with
  | zero =>
    intro lines
    simp [stepSuffixesAux]
  | succ fuel ih =>
    intro lines
    rw [stepSuffixesAux]
    cases hp : parseStep lines with
    | error e =>
      simp
    | ok p =>
      dsimp only
      simp only [List.length_cons]
      exact Nat.succ_le_succ (ih p.2)

theorem nsteps_fst (t : Trajectory) (h : CacheOK t) :
    (t.nsteps).1 = nstepsOf t.lines := by
  show (extendCacheAux t.lines (t.lines.length + 1) t.cache).length = _
  rw [extendCacheAux_spec t.lines (t.lines.length + 1) t.cache h,
    List.length_take]
  have h1 : (stepSuffixes t.lines).length ≤ t.lines.length + 1 :=
    stepSuffixesAux_length_le (t.lines.length + 1) t.lines
  unfold nstepsOf
  omega

theorem readStep_out_of_range (t : Trajectory) (n : ℕ) (h : CacheOK t)
    (hn : nstepsOf t.lines ≤ n) :
    (t.readStep n).1 = Except.error (ParseError.file rangeMsg) := by
  have h1 := (readStep_spec t n h).1
  rw [h1]
  unfold readStepPureT readStepPure
  have hnone : (stepSuffixes t.lines).get? n = none :=
    List.get?_eq_none.mpr hn
  rw [hnone]
  rfl

/-! ## Real-analysis helpers for the triclinic cell geometry -/

theorem sqrt_btwn (q lo hi : ℝ) (h0 : 0 ≤ lo) (hhi : 0 < hi)
    (h1 : lo ^ 2 < q) (h2 : q < hi ^ 2) :
    lo < Real.sqrt q ∧ Real.sqrt q < hi :=
  ⟨(Real.lt_sqrt h0).mpr h1, (Real.sqrt_lt' hhi).mpr h2⟩

theorem arccos_btwn {x a b : ℝ} (hapi : a ≤ Real.pi) (hb0 : 0 ≤ b)
    (hx1 : -1 ≤ x) (hx2 : x ≤ 1)
    (hxa : x < Real.cos a) (hxb : Real.cos b < x) :
    a < Real.arccos x ∧ Real.arccos x < b := by
  constructor
  · by_contra hcon
    push_neg at hcon
    have h := Real.cos_le_cos_of_nonneg_of_le_pi (Real.arccos_nonneg x)
      hapi hcon
    rw [Real.cos_arccos hx1 hx2] at h
    linarith
  · by_contra hcon
    push_neg at hcon
    have h := Real.cos_le_cos_of_nonneg_of_le_pi hb0
      (Real.arccos_le_pi x) hcon
    rw [Real.cos_arccos hx1 hx2] at h
    linarith

theorem cos_pi3_add (t : ℝ) :
    Real.cos (Real.pi / 3 + t) =
      Real.cos t / 2 - Real.sqrt 3 / 2 * Real.sin t := by
  rw [Real.cos_add, Real.cos_pi_div_three, Real.sin_pi_div_three]; ring

section TaylorBounds

open Complex Finset

/-- Order-8 Taylor bound for `cos`, mirroring the order-4 bound of the
standard library at two more terms. -/
theorem cos_bound8 {x : ℝ} (hx : |x| ≤ 1) :
    |Real.cos x - (1 - x ^ 2 / 2 + x ^ 4 / 24 - x ^ 6 / 720)| ≤
      |x| ^ 8 * (9 / 322560) :=
  calc
    |Real.cos x - (1 - x ^ 2 / 2 + x ^ 4 / 24 - x ^ 6 / 720)| =
        Complex.abs (Complex.cos x -
          (1 - (x : ℂ) ^ 2 / 2 + (x : ℂ) ^ 4 / 24 - (x : ℂ) ^ 6 / 720)) := by
      rw [← Complex.abs_ofReal]; simp
    _ = Complex.abs ((Complex.exp (x * I) + Complex.exp (-x * I) -
          (2 - (x : ℂ) ^ 2 + (x : ℂ) ^ 4 / 12 - (x : ℂ) ^ 6 / 360)) / 2) := by
      simp [Complex.cos, sub_div, add_div, neg_div, div_self (two_ne_zero' ℂ)]
      ring_nf
    _ = Complex.abs
          (((Complex.exp (x * I) - ∑ m ∈ range 8, (x * I) ^ m / m.factorial) +
              (Complex.exp (-x * I) -
                ∑ m ∈ range 8, (-x * I) ^ m / m.factorial)) / 2) :=
      congr_arg Complex.abs
        (congr_arg (fun z : ℂ => z / 2)
          (by
            simp only [sum_range_succ, range_zero, sum_empty, Nat.factorial]
            push_cast
            have h2 : (I : ℂ) ^ 2 = -1 := I_sq
            have h3 : (I : ℂ) ^ 3 = -I := by rw [pow_succ, h2]; ring
            have h4 : (I : ℂ) ^ 4 = 1 := by
              rw [pow_succ, h3, neg_mul, I_mul_I]; ring
            have h5 : (I : ℂ) ^ 5 = I := by rw [pow_succ, h4, one_mul]
            have h6 : (I : ℂ) ^ 6 = -1 := by rw [pow_succ, h5, I_mul_I]
            have h7 : (I : ℂ) ^ 7 = -I := by rw [pow_succ, h6]; ring
            simp only [mul_pow, h2, h3, h4, h5, h6, h7]
            ring))
    _ ≤ Complex.abs ((Complex.exp (x * I) -
            ∑ m ∈ range 8, (x * I) ^ m / m.factorial) / 2) +
          Complex.abs ((Complex.exp (-x * I) -
            ∑ m ∈ range 8, (-x * I) ^ m / m.factorial) / 2) := by
      rw [add_div]; exact Complex.abs.add_le _ _
    _ = Complex.abs (Complex.exp (x * I) -
            ∑ m ∈ range 8, (x * I) ^ m / m.factorial) / 2 +
          Complex.abs (Complex.exp (-x * I) -
            ∑ m ∈ range 8, (-x * I) ^ m / m.factorial) / 2 := by
      simp [map_div₀]
    _ ≤ Complex.abs (x * I) ^ 8 *
            (Nat.succ 8 * ((Nat.factorial 8) * (8 : ℕ) : ℝ)⁻¹) / 2 +
          Complex.abs (-x * I) ^ 8 *
            (Nat.succ 8 * ((Nat.factorial 8) * (8 : ℕ) : ℝ)⁻¹) / 2 := by
      gcongr
      · exact Complex.exp_bound (by simpa) (by decide)
      · exact Complex.exp_bound (by simpa) (by decide)
    _ ≤ |x| ^ 8 * (9 / 322560) := by
      norm_num [Nat.factorial]

/-- Order-8 Taylor bound for `sin`, mirroring the order-4 bound of the
standard library at two more terms. -/
theorem sin_bound8 {x : ℝ} (hx : |x| ≤ 1) :
    |Real.sin x - (x - x ^ 3 / 6 + x ^ 5 / 120 - x ^ 7 / 5040)| ≤
      |x| ^ 8 * (9 / 322560) :=
  calc
    |Real.sin x - (x - x ^ 3 / 6 + x ^ 5 / 120 - x ^ 7 / 5040)| =
        Complex.abs (Complex.sin x -
          ((x : ℂ) - (x : ℂ) ^ 3 / 6 + (x : ℂ) ^ 5 / 120 -
            (x : ℂ) ^ 7 / 5040)) := by
      rw [← Complex.abs_ofReal]; simp
    _ = Complex.abs (((Complex.exp (-x * I) - Complex.exp (x * I)) * I -
          (2 * (x : ℂ) - (x : ℂ) ^ 3 / 3 + (x : ℂ) ^ 5 / 60 -
            (x : ℂ) ^ 7 / 2520)) / 2) := by
      simp [Complex.sin, sub_div, add_div, neg_div,
        mul_div_cancel_left₀ _ (two_ne_zero' ℂ), div_div]
      ring_nf
    _ = Complex.abs (((Complex.exp (-x * I) -
            ∑ m ∈ range 8, (-x * I) ^ m / m.factorial) -
              (Complex.exp (x * I) -
                ∑ m ∈ range 8, (x * I) ^ m / m.factorial)) * I / 2) :=
      congr_arg Complex.abs
        (congr_arg (fun z : ℂ => z / 2)
          (by
            simp only [sum_range_succ, range_zero, sum_empty, Nat.factorial]
            push_cast
            have h2 : (I : ℂ) ^ 2 = -1 := I_sq
            have h3 : (I : ℂ) ^ 3 = -I := by rw [pow_succ, h2]; ring
            have h4 : (I : ℂ) ^ 4 = 1 := by
              rw [pow_succ, h3, neg_mul, I_mul_I]; ring
            have h5 : (I : ℂ) ^ 5 = I := by rw [pow_succ, h4, one_mul]
            have h6 : (I : ℂ) ^ 6 = -1 := by rw [pow_succ, h5, I_mul_I]
            have h7 : (I : ℂ) ^ 7 = -I := by rw [pow_succ, h6]; ring
            simp only [mul_pow, h2, h3, h4, h5, h6, h7]
            ring_nf
            simp only [h2, h3, h4, h5, h6, h7]
            ring))
    _ ≤ Complex.abs ((Complex.exp (-x * I) -
            ∑ m ∈ range 8, (-x * I) ^ m / m.factorial) * I / 2) +
          Complex.abs (-((Complex.exp (x * I) -
            ∑ m ∈ range 8, (x * I) ^ m / m.factorial) * I) / 2) := by
      rw [sub_mul, sub_eq_add_neg, add_div]; exact Complex.abs.add_le _ _
    _ = Complex.abs (Complex.exp (x * I) -
            ∑ m ∈ range 8, (x * I) ^ m / m.factorial) / 2 +
          Complex.abs (Complex.exp (-x * I) -
            ∑ m ∈ range 8, (-x * I) ^ m / m.factorial) / 2 := by
      simp [add_comm, map_div₀]
    _ ≤ Complex.abs (x * I) ^ 8 *
            (Nat.succ 8 * ((Nat.factorial 8) * (8 : ℕ) : ℝ)⁻¹) / 2 +
          Complex.abs (-x * I) ^ 8 *
            (Nat.succ 8 * ((Nat.factorial 8) * (8 : ℕ) : ℝ)⁻¹) / 2 := by
      gcongr
      · exact Complex.exp_bound (by simpa) (by decide)
      · exact Complex.exp_bound (by simpa) (by decide)
    _ ≤ |x| ^ 8 * (9 / 322560) := by
      norm_num [Nat.factorial]

end TaylorBounds

theorem sqrt3_btwn :
    (4330127 / 2500000 : ℝ) < Real.sqrt 3 ∧
      Real.sqrt 3 < 86602541 / 50000000 :=
  sqrt_btwn 3 (4330127 / 2500000) (86602541 / 50000000)
    (by norm_num) (by norm_num) (by norm_num) (by norm_num)

/-! ## Triclinic box parsing and geometry -/

theorem boxIsTriclinic_congr {flags₁ flags₂ : Line}
    (h : flags₁.Perm flags₂) :
    boxIsTriclinic flags₁ = boxIsTriclinic flags₂ := by
  unfold boxIsTriclinic
  rw [hasCol_eq_of_perm h "xy", hasCol_eq_of_perm h "xz",
    hasCol_eq_of_perm h "yz"]

theorem readBoxBody_congr {flags₁ flags₂ : Line} (h : flags₁.Perm flags₂)
    (lines : List Line) :
    readBoxBody flags₁ lines = readBoxBody flags₂ lines := by
  unfold readBoxBody
  rw [boxIsTriclinic_congr h]

theorem triclinic_lenA : triclinicCell.lengths.1 = 10 := by
  show Real.sqrt (((10 : ℚ) : ℝ) ^ 2 + (0 : ℝ) ^ 2 + (0 : ℝ) ^ 2) = 10
  have h : (((10 : ℚ) : ℝ) ^ 2 + (0 : ℝ) ^ 2 + (0 : ℝ) ^ 2) = 10 ^ 2 := by
    push_cast
    norm_num
  rw [h, Real.sqrt_sq (by norm_num)]

theorem triclinic_lenB : |triclinicCell.lengths.2.1 - 20.616| < 1 / 1000 := by
  have hv : triclinicCell.lengths.2.1 = Real.sqrt 425 := by
    show Real.sqrt (((5 : ℚ) : ℝ) ^ 2 + ((20 : ℚ) : ℝ) ^ 2 + (0 : ℝ) ^ 2) = _
    have h : (((5 : ℚ) : ℝ) ^ 2 + ((20 : ℚ) : ℝ) ^ 2 + (0 : ℝ) ^ 2) = 425 := by
      push_cast
      norm_num
    rw [h]
  have hb := sqrt_btwn 425 (20615 / 1000) (20617 / 1000)
    (by norm_num) (by norm_num) (by norm_num) (by norm_num)
  rw [hv, abs_lt]
  constructor
  · linarith [hb.1]
  · linarith [hb.2]

theorem triclinic_lenC : |triclinicCell.lengths.2.2 - 12.217| < 1 / 1000 := by
  have hv : triclinicCell.lengths.2.2 = Real.sqrt (597 / 4) := by
    show Real.sqrt (((4 : ℚ) : ℝ) ^ 2 + ((7 / 2 : ℚ) : ℝ) ^ 2 +
      ((11 : ℚ) : ℝ) ^ 2) = _
    have h : (((4 : ℚ) : ℝ) ^ 2 + ((7 / 2 : ℚ) : ℝ) ^ 2 +
        ((11 : ℚ) : ℝ) ^ 2) = 597 / 4 := by
      push_cast
      norm_num
    rw [h]
  have hb := sqrt_btwn (597 / 4) (12216 / 1000) (12218 / 1000)
    (by norm_num) (by norm_num) (by norm_num) (by norm_num)
  rw [hv, abs_lt]
  constructor
  · linarith [hb.1]
  · linarith [hb.2]


set_option maxHeartbeats 2000000 in
/-- The `α` angle of the triclinic reference cell is within `1e-3`
degrees of the value checked by the reference test. -/
theorem triclinic_alpha :
    |triclinicCell.angles.1 - 69.063| < 1 / 1000 := by
  have hpi1 : 3.141592 < Real.pi := Real.pi_gt_d6
  have hpi2 : Real.pi < 3.141593 := Real.pi_lt_d6
  have hpi0 : (0 : ℝ) < Real.pi := by linarith
  have hBC : vnorm (triclinicCell.vecB) * vnorm (triclinicCell.vecC) =
      Real.sqrt (253725 / 4) := by
    show Real.sqrt (((5 : ℚ) : ℝ) ^ 2 + ((20 : ℚ) : ℝ) ^ 2 + (0 : ℝ) ^ 2) *
        Real.sqrt (((4 : ℚ) : ℝ) ^ 2 + ((7 / 2 : ℚ) : ℝ) ^ 2 + ((11 : ℚ) : ℝ) ^ 2) = Real.sqrt (253725 / 4)
    rw [← Real.sqrt_mul (by push_cast; positivity)]
    push_cast
    norm_num
  have hangle : triclinicCell.angles.1 =
      Real.arccos ((90 : ℝ) / Real.sqrt (253725 / 4)) * 180 / Real.pi := by
    show Real.arccos (vdot triclinicCell.vecB triclinicCell.vecC /
        (vnorm triclinicCell.vecB * vnorm triclinicCell.vecC)) * 180 /
          Real.pi = _
    rw [hBC]
    have hdot : vdot triclinicCell.vecB triclinicCell.vecC = 90 := by
      show ((5 : ℚ) : ℝ) * ((4 : ℚ) : ℝ) + ((20 : ℚ) : ℝ) * ((7 / 2 : ℚ) : ℝ) + (0 : ℝ) * ((11 : ℚ) : ℝ) = 90
      push_cast
      norm_num
    rw [hdot]
  have hD := sqrt_btwn ((253725 / 4 : ℝ)) (25185561339 / 100000000) (25185561341 / 100000000)
    (by norm_num) (by norm_num) (by norm_num) (by norm_num)
  have hD0 : (0 : ℝ) < Real.sqrt (253725 / 4) := by
    have := hD.1
    nlinarith
  have hxlo : (90 : ℝ) / (25185561341 / 100000000) < 90 / Real.sqrt (253725 / 4) :=
    div_lt_div_of_pos_left (by norm_num) hD0 hD.2
  have hxhi : (90 : ℝ) / Real.sqrt (253725 / 4) < 90 / (25185561339 / 100000000) :=
    div_lt_div_of_pos_left (by norm_num) (by norm_num) hD.1
  have hx1 : (-1 : ℝ) ≤ 90 / Real.sqrt (253725 / 4) := by
    have : (0 : ℝ) < 90 / (25185561341 / 100000000) := by norm_num
    linarith
  have hx2 : (90 : ℝ) / Real.sqrt (253725 / 4) ≤ 1 := by
    have : (90 : ℝ) / (25185561339 / 100000000) < 1 := by norm_num
    linarith
  have habs1 : |(790809 / 5000000 : ℝ)| ≤ 1 := by
    rw [abs_le]; constructor <;> norm_num
  have habs2 : |(790983 / 5000000 : ℝ)| ≤ 1 := by
    rw [abs_le]; constructor <;> norm_num
  have hcos1 := cos_bound8 habs1
  have hsin1 := sin_bound8 habs1
  have hcos2 := cos_bound8 habs2
  have hsin2 := sin_bound8 habs2
  rw [abs_of_pos (by norm_num : (0 : ℝ) < 790809 / 5000000), abs_le] at hcos1 hsin1
  rw [abs_of_pos (by norm_num : (0 : ℝ) < 790983 / 5000000), abs_le] at hcos2 hsin2
  have hclo1 : (493759237 / 500000000 : ℝ) ≤ Real.cos (790809 / 5000000) := by
    have h := hcos1.1
    norm_num at h ⊢
    linarith
  have hshi1 : Real.sin (790809 / 5000000) ≤ (1575032173 / 10000000000 : ℝ) := by
    have h := hsin1.2
    norm_num at h ⊢
    linarith
  have hs1nn : (0 : ℝ) ≤ Real.sin (790809 / 5000000) := by
    have h := hsin1.1
    norm_num at h
    linarith
  have hchi2 : Real.cos (790983 / 5000000) ≤ (2468782481 / 2500000000 : ℝ) := by
    have h := hcos2.2
    norm_num at h ⊢
    linarith
  have hslo2 : (393843957 / 2500000000 : ℝ) ≤ Real.sin (790983 / 5000000) := by
    have h := hsin2.1
    norm_num at h ⊢
    linarith
  clear hcos1 hsin1 hcos2 hsin2 habs1 habs2
  have h3 := sqrt3_btwn
  have hprod1 : Real.sqrt 3 * Real.sin (790809 / 5000000) ≤
      (86602541 / 50000000) * (1575032173 / 10000000000 : ℝ) :=
    mul_le_mul h3.2.le hshi1 hs1nn (by norm_num)
  have hprod2 : (4330127 / 2500000) * (393843957 / 2500000000 : ℝ) ≤
      Real.sqrt 3 * Real.sin (790983 / 5000000) :=
    mul_le_mul h3.1.le hslo2 (by norm_num) (Real.sqrt_nonneg 3)
  have hlo : (90 : ℝ) / Real.sqrt (253725 / 4) <
      Real.cos (Real.pi / 3 + 790809 / 5000000) := by
    rw [cos_pi3_add]
    have hmid : (90 : ℝ) / (25185561339 / 100000000) ≤
        (493759237 / 500000000) / 2 - (86602541 / 50000000) * (1575032173 / 10000000000) / 2 := by
      norm_num
    linarith
  have hhi : Real.cos (Real.pi / 3 + 790983 / 5000000) <
      (90 : ℝ) / Real.sqrt (253725 / 4) := by
    rw [cos_pi3_add]
    have hmid : (2468782481 / 2500000000 : ℝ) / 2 -
        (4330127 / 2500000) * (393843957 / 2500000000) / 2 < 90 / (25185561341 / 100000000) := by
      norm_num
    linarith
  have harc := arccos_btwn (a := Real.pi / 3 + 790809 / 5000000)
    (b := Real.pi / 3 + 790983 / 5000000)
    (by linarith) (by linarith) hx1 hx2 hlo hhi
  rw [hangle, abs_lt]
  have hlodeg : (69.062 : ℝ) <
      Real.arccos ((90 : ℝ) / Real.sqrt (253725 / 4)) * 180 / Real.pi := by
    have h1 : (Real.pi / 3 + 790809 / 5000000) * 180 / Real.pi <
        Real.arccos ((90 : ℝ) / Real.sqrt (253725 / 4)) * 180 / Real.pi := by
      gcongr
      exact harc.1
    have h2 : (Real.pi / 3 + 790809 / 5000000) * 180 / Real.pi =
        60 + (790809 / 5000000) * 180 / Real.pi := by
      field_simp
      ring
    have h6 : (9.062 : ℝ) < (790809 / 5000000) * 180 / Real.pi := by
      rw [lt_div_iff₀ hpi0]
      have h4 : (9.062 : ℝ) * Real.pi < 9.062 * 3.141593 :=
        mul_lt_mul_of_pos_left hpi2 (by norm_num)
      have h5 : (9.062 : ℝ) * 3.141593 ≤ (790809 / 5000000) * 180 := by norm_num
      linarith
    linarith
  have hhideg : Real.arccos ((90 : ℝ) / Real.sqrt (253725 / 4)) * 180 /
      Real.pi < 69.064 := by
    have h1 : Real.arccos ((90 : ℝ) / Real.sqrt (253725 / 4)) * 180 /
        Real.pi < (Real.pi / 3 + 790983 / 5000000) * 180 / Real.pi := by
      gcongr
      exact harc.2
    have h2 : (Real.pi / 3 + 790983 / 5000000) * 180 / Real.pi =
        60 + (790983 / 5000000) * 180 / Real.pi := by
      field_simp
      ring
    have h6 : (790983 / 5000000 : ℝ) * 180 / Real.pi < 9.064 := by
      rw [div_lt_iff₀ hpi0]
      have h4 : (9.064 : ℝ) * 3.141592 < 9.064 * Real.pi :=
        mul_lt_mul_of_pos_left hpi1 (by norm_num)
      have h5 : (790983 / 5000000 : ℝ) * 180 ≤ (9.064) * 3.141592 := by norm_num
      linarith
    linarith
  constructor <;> [linarith; linarith]


set_option maxHeartbeats 2000000 in
/-- The `β` angle of the triclinic reference cell is within `1e-3`
degrees of the value checked by the reference test. -/
theorem triclinic_beta :
    |triclinicCell.angles.2.1 - 70.888| < 1 / 1000 := by
  have hpi1 : 3.141592 < Real.pi := Real.pi_gt_d6
  have hpi2 : Real.pi < 3.141593 := Real.pi_lt_d6
  have hpi0 : (0 : ℝ) < Real.pi := by linarith
  have hBC : vnorm (triclinicCell.vecA) * vnorm (triclinicCell.vecC) =
      Real.sqrt (14925) := by
    show Real.sqrt (((10 : ℚ) : ℝ) ^ 2 + (0 : ℝ) ^ 2 + (0 : ℝ) ^ 2) *
        Real.sqrt (((4 : ℚ) : ℝ) ^ 2 + ((7 / 2 : ℚ) : ℝ) ^ 2 + ((11 : ℚ) : ℝ) ^ 2) = Real.sqrt (14925)
    rw [← Real.sqrt_mul (by push_cast; positivity)]
    push_cast
    norm_num
  have hangle : triclinicCell.angles.2.1 =
      Real.arccos ((40 : ℝ) / Real.sqrt (14925)) * 180 / Real.pi := by
    show Real.arccos (vdot triclinicCell.vecA triclinicCell.vecC /
        (vnorm triclinicCell.vecA * vnorm triclinicCell.vecC)) * 180 /
          Real.pi = _
    rw [hBC]
    have hdot : vdot triclinicCell.vecA triclinicCell.vecC = 40 := by
      show ((10 : ℚ) : ℝ) * ((4 : ℚ) : ℝ) + (0 : ℝ) * ((7 / 2 : ℚ) : ℝ) + (0 : ℝ) * ((11 : ℚ) : ℝ) = 40
      push_cast
      norm_num
    rw [hdot]
  have hD := sqrt_btwn ((14925 : ℝ)) (1221679172 / 10000000) (1221679174 / 10000000)
    (by norm_num) (by norm_num) (by norm_num) (by norm_num)
  have hD0 : (0 : ℝ) < Real.sqrt (14925) := by
    have := hD.1
    nlinarith
  have hxlo : (40 : ℝ) / (1221679174 / 10000000) < 40 / Real.sqrt (14925) :=
    div_lt_div_of_pos_left (by norm_num) hD0 hD.2
  have hxhi : (40 : ℝ) / Real.sqrt (14925) < 40 / (1221679172 / 10000000) :=
    div_lt_div_of_pos_left (by norm_num) (by norm_num) hD.1
  have hx1 : (-1 : ℝ) ≤ 40 / Real.sqrt (14925) := by
    have : (0 : ℝ) < 40 / (1221679174 / 10000000) := by norm_num
    linarith
  have hx2 : (40 : ℝ) / Real.sqrt (14925) ≤ 1 := by
    have : (40 : ℝ) / (1221679172 / 10000000) < 1 := by norm_num
    linarith
  have habs1 : |(1900141 / 10000000 : ℝ)| ≤ 1 := by
    rw [abs_le]; constructor <;> norm_num
  have habs2 : |(237561 / 1250000 : ℝ)| ≤ 1 := by
    rw [abs_le]; constructor <;> norm_num
  have hcos1 := cos_bound8 habs1
  have hsin1 := sin_bound8 habs1
  have hcos2 := cos_bound8 habs2
  have hsin2 := sin_bound8 habs2
  rw [abs_of_pos (by norm_num : (0 : ℝ) < 1900141 / 10000000), abs_le] at hcos1 hsin1
  rw [abs_of_pos (by norm_num : (0 : ℝ) < 237561 / 1250000), abs_le] at hcos2 hsin2
  have hclo1 : (245500393 / 250000000 : ℝ) ≤ Real.cos (1900141 / 10000000) := by
    have h := hcos1.1
    norm_num at h ⊢
    linarith
  have hshi1 : Real.sin (1900141 / 10000000) ≤ (1888727413 / 10000000000 : ℝ) := by
    have h := hsin1.2
    norm_num at h ⊢
    linarith
  have hs1nn : (0 : ℝ) ≤ Real.sin (1900141 / 10000000) := by
    have h := hsin1.1
    norm_num at h
    linarith
  have hchi2 : Real.cos (237561 / 1250000) ≤ (9819950177 / 10000000000 : ℝ) := by
    have h := hcos2.2
    norm_num at h ⊢
    linarith
  have hslo2 : (377813633 / 2000000000 : ℝ) ≤ Real.sin (237561 / 1250000) := by
    have h := hsin2.1
    norm_num at h ⊢
    linarith
  clear hcos1 hsin1 hcos2 hsin2 habs1 habs2
  have h3 := sqrt3_btwn
  have hprod1 : Real.sqrt 3 * Real.sin (1900141 / 10000000) ≤
      (86602541 / 50000000) * (1888727413 / 10000000000 : ℝ) :=
    mul_le_mul h3.2.le hshi1 hs1nn (by norm_num)
  have hprod2 : (4330127 / 2500000) * (377813633 / 2000000000 : ℝ) ≤
      Real.sqrt 3 * Real.sin (237561 / 1250000) :=
    mul_le_mul h3.1.le hslo2 (by norm_num) (Real.sqrt_nonneg 3)
  have hlo : (40 : ℝ) / Real.sqrt (14925) <
      Real.cos (Real.pi / 3 + 1900141 / 10000000) := by
    rw [cos_pi3_add]
    have hmid : (40 : ℝ) / (1221679172 / 10000000) ≤
        (245500393 / 250000000) / 2 - (86602541 / 50000000) * (1888727413 / 10000000000) / 2 := by
      norm_num
    linarith
  have hhi : Real.cos (Real.pi / 3 + 237561 / 1250000) <
      (40 : ℝ) / Real.sqrt (14925) := by
    rw [cos_pi3_add]
    have hmid : (9819950177 / 10000000000 : ℝ) / 2 -
        (4330127 / 2500000) * (377813633 / 2000000000) / 2 < 40 / (1221679174 / 10000000) := by
      norm_num
    linarith
  have harc := arccos_btwn (a := Real.pi / 3 + 1900141 / 10000000)
    (b := Real.pi / 3 + 237561 / 1250000)
    (by linarith) (by linarith) hx1 hx2 hlo hhi
  rw [hangle, abs_lt]
  have hlodeg : (70.887 : ℝ) <
      Real.arccos ((40 : ℝ) / Real.sqrt (14925)) * 180 / Real.pi := by
    have h1 : (Real.pi / 3 + 1900141 / 10000000) * 180 / Real.pi <
        Real.arccos ((40 : ℝ) / Real.sqrt (14925)) * 180 / Real.pi := by
      gcongr
      exact harc.1
    have h2 : (Real.pi / 3 + 1900141 / 10000000) * 180 / Real.pi =
        60 + (1900141 / 10000000) * 180 / Real.pi := by
      field_simp
      ring
    have h6 : (10.887 : ℝ) < (1900141 / 10000000) * 180 / Real.pi := by
      rw [lt_div_iff₀ hpi0]
      have h4 : (10.887 : ℝ) * Real.pi < 10.887 * 3.141593 :=
        mul_lt_mul_of_pos_left hpi2 (by norm_num)
      have h5 : (10.887 : ℝ) * 3.141593 ≤ (1900141 / 10000000) * 180 := by norm_num
      linarith
    linarith
  have hhideg : Real.arccos ((40 : ℝ) / Real.sqrt (14925)) * 180 /
      Real.pi < 70.889 := by
    have h1 : Real.arccos ((40 : ℝ) / Real.sqrt (14925)) * 180 /
        Real.pi < (Real.pi / 3 + 237561 / 1250000) * 180 / Real.pi := by
      gcongr
      exact harc.2
    have h2 : (Real.pi / 3 + 237561 / 1250000) * 180 / Real.pi =
        60 + (237561 / 1250000) * 180 / Real.pi := by
      field_simp
      ring
    have h6 : (237561 / 1250000 : ℝ) * 180 / Real.pi < 10.889 := by
      rw [div_lt_iff₀ hpi0]
      have h4 : (10.889 : ℝ) * 3.141592 < 10.889 * Real.pi :=
        mul_lt_mul_of_pos_left hpi1 (by norm_num)
      have h5 : (237561 / 1250000 : ℝ) * 180 ≤ (10.889) * 3.141592 := by norm_num
      linarith
    linarith
  constructor <;> [linarith; linarith]


set_option maxHeartbeats 2000000 in
/-- The `γ` angle of the triclinic reference cell is within `1e-3`
degrees of the value checked by the reference test. -/
theorem triclinic_gamma :
    |triclinicCell.angles.2.2 - 75.964| < 1 / 1000 := by
  have hpi1 : 3.141592 < Real.pi := Real.pi_gt_d6
  have hpi2 : Real.pi < 3.141593 := Real.pi_lt_d6
  have hpi0 : (0 : ℝ) < Real.pi := by linarith
  have hBC : vnorm (triclinicCell.vecA) * vnorm (triclinicCell.vecB) =
      Real.sqrt (42500) := by
    show Real.sqrt (((10 : ℚ) : ℝ) ^ 2 + (0 : ℝ) ^ 2 + (0 : ℝ) ^ 2) *
        Real.sqrt (((5 : ℚ) : ℝ) ^ 2 + ((20 : ℚ) : ℝ) ^ 2 + (0 : ℝ) ^ 2) = Real.sqrt (42500)
    rw [← Real.sqrt_mul (by push_cast; positivity)]
    push_cast
    norm_num
  have hangle : triclinicCell.angles.2.2 =
      Real.arccos ((50 : ℝ) / Real.sqrt (42500)) * 180 / Real.pi := by
    show Real.arccos (vdot triclinicCell.vecA triclinicCell.vecB /
        (vnorm triclinicCell.vecA * vnorm triclinicCell.vecB)) * 180 /
          Real.pi = _
    rw [hBC]
    have hdot : vdot triclinicCell.vecA triclinicCell.vecB = 50 := by
      show ((10 : ℚ) : ℝ) * ((5 : ℚ) : ℝ) + (0 : ℝ) * ((20 : ℚ) : ℝ) + (0 : ℝ) * (0 : ℝ) = 50
      push_cast
      norm_num
    rw [hdot]
  have hD := sqrt_btwn ((42500 : ℝ)) (2061552812 / 10000000) (2061552814 / 10000000)
    (by norm_num) (by norm_num) (by norm_num) (by norm_num)
  have hD0 : (0 : ℝ) < Real.sqrt (42500) := by
    have := hD.1
    nlinarith
  have hxlo : (50 : ℝ) / (2061552814 / 10000000) < 50 / Real.sqrt (42500) :=
    div_lt_div_of_pos_left (by norm_num) hD0 hD.2
  have hxhi : (50 : ℝ) / Real.sqrt (42500) < 50 / (2061552812 / 10000000) :=
    div_lt_div_of_pos_left (by norm_num) (by norm_num) hD.1
  have hx1 : (-1 : ℝ) ≤ 50 / Real.sqrt (42500) := by
    have : (0 : ℝ) < 50 / (2061552814 / 10000000) := by norm_num
    linarith
  have hx2 : (50 : ℝ) / Real.sqrt (42500) ≤ 1 := by
    have : (50 : ℝ) / (2061552812 / 10000000) < 1 := by norm_num
    linarith
  have habs1 : |(278607 / 1000000 : ℝ)| ≤ 1 := by
    rw [abs_le]; constructor <;> norm_num
  have habs2 : |(2786417 / 10000000 : ℝ)| ≤ 1 := by
    rw [abs_le]; constructor <;> norm_num
  have hcos1 := cos_bound8 habs1
  have hsin1 := sin_bound8 habs1
  have hcos2 := cos_bound8 habs2
  have hsin2 := sin_bound8 habs2
  rw [abs_of_pos (by norm_num : (0 : ℝ) < 278607 / 1000000), abs_le] at hcos1 hsin1
  rw [abs_of_pos (by norm_num : (0 : ℝ) < 2786417 / 10000000), abs_le] at hcos2 hsin2
  have hclo1 : (600899667 / 625000000 : ℝ) ≤ Real.cos (278607 / 1000000) := by
    have h := hcos1.1
    norm_num at h ⊢
    linarith
  have hshi1 : Real.sin (278607 / 1000000) ≤ (2750166317 / 10000000000 : ℝ) := by
    have h := hsin1.2
    norm_num at h ⊢
    linarith
  have hs1nn : (0 : ℝ) ≤ Real.sin (278607 / 1000000) := by
    have h := hsin1.1
    norm_num at h
    linarith
  have hchi2 : Real.cos (2786417 / 10000000) ≤ (9614299257 / 10000000000 : ℝ) := by
    have h := hcos2.2
    norm_num at h ⊢
    linarith
  have hslo2 : (2750499913 / 10000000000 : ℝ) ≤ Real.sin (2786417 / 10000000) := by
    have h := hsin2.1
    norm_num at h ⊢
    linarith
  clear hcos1 hsin1 hcos2 hsin2 habs1 habs2
  have h3 := sqrt3_btwn
  have hprod1 : Real.sqrt 3 * Real.sin (278607 / 1000000) ≤
      (86602541 / 50000000) * (2750166317 / 10000000000 : ℝ) :=
    mul_le_mul h3.2.le hshi1 hs1nn (by norm_num)
  have hprod2 : (4330127 / 2500000) * (2750499913 / 10000000000 : ℝ) ≤
      Real.sqrt 3 * Real.sin (2786417 / 10000000) :=
    mul_le_mul h3.1.le hslo2 (by norm_num) (Real.sqrt_nonneg 3)
  have hlo : (50 : ℝ) / Real.sqrt (42500) <
      Real.cos (Real.pi / 3 + 278607 / 1000000) := by
    rw [cos_pi3_add]
    have hmid : (50 : ℝ) / (2061552812 / 10000000) ≤
        (600899667 / 625000000) / 2 - (86602541 / 50000000) * (2750166317 / 10000000000) / 2 := by
      norm_num
    linarith
  have hhi : Real.cos (Real.pi / 3 + 2786417 / 10000000) <
      (50 : ℝ) / Real.sqrt (42500) := by
    rw [cos_pi3_add]
    have hmid : (9614299257 / 10000000000 : ℝ) / 2 -
        (4330127 / 2500000) * (2750499913 / 10000000000) / 2 < 50 / (2061552814 / 10000000) := by
      norm_num
    linarith
  have harc := arccos_btwn (a := Real.pi / 3 + 278607 / 1000000)
    (b := Real.pi / 3 + 2786417 / 10000000)
    (by linarith) (by linarith) hx1 hx2 hlo hhi
  rw [hangle, abs_lt]
  have hlodeg : (75.963 : ℝ) <
      Real.arccos ((50 : ℝ) / Real.sqrt (42500)) * 180 / Real.pi := by
    have h1 : (Real.pi / 3 + 278607 / 1000000) * 180 / Real.pi <
        Real.arccos ((50 : ℝ) / Real.sqrt (42500)) * 180 / Real.pi := by
      gcongr
      exact harc.1
    have h2 : (Real.pi / 3 + 278607 / 1000000) * 180 / Real.pi =
        60 + (278607 / 1000000) * 180 / Real.pi := by
      field_simp
      ring
    have h6 : (15.963 : ℝ) < (278607 / 1000000) * 180 / Real.pi := by
      rw [lt_div_iff₀ hpi0]
      have h4 : (15.963 : ℝ) * Real.pi < 15.963 * 3.141593 :=
        mul_lt_mul_of_pos_left hpi2 (by norm_num)
      have h5 : (15.963 : ℝ) * 3.141593 ≤ (278607 / 1000000) * 180 := by norm_num
      linarith
    linarith
  have hhideg : Real.arccos ((50 : ℝ) / Real.sqrt (42500)) * 180 /
      Real.pi < 75.965 := by
    have h1 : Real.arccos ((50 : ℝ) / Real.sqrt (42500)) * 180 /
        Real.pi < (Real.pi / 3 + 2786417 / 10000000) * 180 / Real.pi := by
      gcongr
      exact harc.2
    have h2 : (Real.pi / 3 + 2786417 / 10000000) * 180 / Real.pi =
        60 + (2786417 / 10000000) * 180 / Real.pi := by
      field_simp
      ring
    have h6 : (2786417 / 10000000 : ℝ) * 180 / Real.pi < 15.965 := by
      rw [div_lt_iff₀ hpi0]
      have h4 : (15.965 : ℝ) * 3.141592 < 15.965 * Real.pi :=
        mul_lt_mul_of_pos_left hpi1 (by norm_num)
      have h5 : (2786417 / 10000000 : ℝ) * 180 ≤ (15.965) * 3.141592 := by norm_num
      linarith
    linarith
  constructor <;> [linarith; linarith]

/-! ## Claims -/

/-- C1: when a step's ATOMS column list exposes several position
representations at once, the parser uses only the highest-priority
fully-available one, in the order `xu/yu/zu` > `x/y/z` (+ image indices) >
`xsu/ysu/zsu` > `xs/ys/zs` (+ image indices).  General part: for every
successfully parsed step, whichever representation is the first of the
priority ladder to be fully declared determines every position, converted
per §4.1, with all lower-priority representations ignored — one conjunct
per rung, so permuting any two rungs would falsify the statement.  Concrete
parts: the reference step listing `x y z`, `xu yu zu` and `xus yus zus`
simultaneously yields the `xu/yu/zu` values `(150.5, 160.6, 170.7)`; a step
listing `x y z ix iy iz`, `xs ys zs` and `xsu ysu zsu` yields the
image-unwrapped Cartesian values; a step listing `xsu ysu zsu` and
`xs ys zs` yields the scaled-unwrapped conversion. -/
theorem claim_C1 :
    (∀ (cell : UnitCell) (origin : Vec3) (cols : Line) (rows : List Line)
      (n : ℕ) (rds : List RowData),
      parseAtomRows cell origin cols rows n = Except.ok rds →
      (hasTriple cols "xu" "yu" "zu" = true →
        (rds.map RowData.pos).Perm (rows.map (fun r =>
          (colRatD cols r "xu" 0, colRatD cols r "yu" 0,
            colRatD cols r "zu" 0)))) ∧
      (hasTriple cols "xu" "yu" "zu" = false →
        hasTriple cols "x" "y" "z" = true →
        (rds.map RowData.pos).Perm (rows.map (fun r =>
          (colRatD cols r "x" 0, colRatD cols r "y" 0,
            colRatD cols r "z" 0) +
            cell.imageShift (colRatD cols r "ix" 0, colRatD cols r "iy" 0,
              colRatD cols r "iz" 0)))) ∧
      (hasTriple cols "xu" "yu" "zu" = false →
        hasTriple cols "x" "y" "z" = false →
        hasTriple cols "xsu" "ysu" "zsu" = true →
        (rds.map RowData.pos).Perm (rows.map (fun r =>
          origin + cell.fracToCart (colRatD cols r "xsu" 0,
            colRatD cols r "ysu" 0, colRatD cols r "zsu" 0)))) ∧
      (hasTriple cols "xu" "yu" "zu" = false →
        hasTriple cols "x" "y" "z" = false →
        hasTriple cols "xsu" "ysu" "zsu" = false →
        hasTriple cols "xs" "ys" "zs" = true →
        (rds.map RowData.pos).Perm (rows.map (fun r =>
          origin + cell.fracToCart
            (colRatD cols r "xs" 0 + colRatD cols r "ix" 0,
             colRatD cols r "ys" 0 + colRatD cols r "iy" 0,
             colRatD cols r "zs" 0 + colRatD cols r "iz" 0))))) ∧
    (parseStep reprStep1).map (fun p => p.1.positions) =
      Except.ok [(301 / 2, 803 / 5, 1707 / 10)] ∧
    (parseStep reprStep3).map (fun p => p.1.positions) =
      Except.ok [(21, 2, 83)] ∧
    (parseStep reprStep4).map (fun p => p.1.positions) =
      Except.ok [(5, 15, 30)] := by
  refine ⟨?_, by decide, by decide, by decide⟩
  intro cell origin cols rows n rds h
  obtain ⟨rds', hall, hperm⟩ :=
    parseAtomRows_ok_perm cell origin cols rows n rds h
  have hperm' := hperm.map RowData.pos
  refine ⟨?_, ?_, ?_, ?_⟩
  · intro h1
    have hmap : rds'.map RowData.pos = rows.map (fun r =>
        (colRatD cols r "xu" 0, colRatD cols r "yu" 0,
          colRatD cols r "zu" 0)) := by
      refine map_eq_of_forall₂ hall _ _ (fun row rd hr => ?_)
      obtain ⟨_, _, hpos, _⟩ := parseRow_ok_parts cell origin cols row rd hr
      exact resolvePosition_xu cell origin cols row rd.pos h1 hpos
    rwa [hmap] at hperm'
  · intro h1 h2
    have hmap : rds'.map RowData.pos = rows.map (fun r =>
        (colRatD cols r "x" 0, colRatD cols r "y" 0, colRatD cols r "z" 0) +
          cell.imageShift (colRatD cols r "ix" 0, colRatD cols r "iy" 0,
            colRatD cols r "iz" 0)) := by
      refine map_eq_of_forall₂ hall _ _ (fun row rd hr => ?_)
      obtain ⟨_, _, hpos, _⟩ := parseRow_ok_parts cell origin cols row rd hr
      exact resolvePosition_xyz cell origin cols row rd.pos h1 h2 hpos
    rwa [hmap] at hperm'
  · intro h1 h2 h3
    have hmap : rds'.map RowData.pos = rows.map (fun r =>
        origin + cell.fracToCart (colRatD cols r "xsu" 0,
          colRatD cols r "ysu" 0, colRatD cols r "zsu" 0)) := by
      refine map_eq_of_forall₂ hall _ _ (fun row rd hr => ?_)
      obtain ⟨_, _, hpos, _⟩ := parseRow_ok_parts cell origin cols row rd hr
      exact resolvePosition_xsu cell origin cols row rd.pos h1 h2 h3 hpos
    rwa [hmap] at hperm'
  · intro h1 h2 h3 h4
    have hmap : rds'.map RowData.pos = rows.map (fun r =>
        origin + cell.fracToCart
          (colRatD cols r "xs" 0 + colRatD cols r "ix" 0,
           colRatD cols r "ys" 0 + colRatD cols r "iy" 0,
           colRatD cols r "zs" 0 + colRatD cols r "iz" 0)) := by
      refine map_eq_of_forall₂ hall _ _ (fun row rd hr => ?_)
      obtain ⟨_, _, hpos, _⟩ := parseRow_ok_parts cell origin cols row rd hr
      exact resolvePosition_xs cell origin cols row rd.pos h1 h2 h3 h4 hpos
    rwa [hmap] at hperm'

/-- Witness for C1: the general statement instantiated at the reference
multi-representation step (top rung, `xu/yu/zu` declared) and at the
two-scaled-representations step (third rung, `xsu/ysu/zsu` winning). -/
theorem claim_C1_witness :
    (hasTriple reprCols "xu" "yu" "zu" = true ∧
     parseAtomRows bigCell (0, 0, 0) reprCols [reprRow] 1 =
       Except.ok [reprRowData] ∧
     ([reprRowData].map RowData.pos).Perm ([reprRow].map (fun r =>
       (colRatD reprCols r "xu" 0, colRatD reprCols r "yu" 0,
         colRatD reprCols r "zu" 0)))) ∧
    (hasTriple repr4Cols "xu" "yu" "zu" = false ∧
     hasTriple repr4Cols "x" "y" "z" = false ∧
     hasTriple repr4Cols "xsu" "ysu" "zsu" = true ∧
     parseAtomRows bigCell (0, 0, 0) repr4Cols [repr4Row] 1 =
       Except.ok [repr4RowData] ∧
     ([repr4RowData].map RowData.pos).Perm ([repr4Row].map (fun r =>
       (0, 0, 0) + bigCell.fracToCart (colRatD repr4Cols r "xsu" 0,
         colRatD repr4Cols r "ysu" 0, colRatD repr4Cols r "zsu" 0)))) :=
  ⟨⟨by decide, by decide,
    (claim_C1.1 bigCell (0, 0, 0) reprCols [reprRow] 1 [reprRowData]
      (by decide)).1 (by decide)⟩,
   ⟨by decide, by decide, by decide, by decide,
    (claim_C1.1 bigCell (0, 0, 0) repr4Cols [repr4Row] 1 [repr4RowData]
      (by decide)).2.2.1 (by decide) (by decide) (by decide)⟩⟩

/-- C3: the result of parsing does not depend on the order of the columns in
the ATOMS marker line.  General parts: for duplicate-free column lists,
permuting the column names and every data line's fields in the same way
leaves the parsed per-atom data unchanged, and the velocity-presence test is
permutation-invariant.  Concrete part: the reference step with thoroughly
permuted columns parses to the identical frame as its canonically ordered
version. -/
theorem claim_C3 :
    (∀ (cell : UnitCell) (origin : Vec3) (cols₁ cols₂ : Line)
      (rows₁ rows₂ : List Line) (n : ℕ),
      cols₁.Nodup → cols₁.Perm cols₂ →
      List.Forall₂ (RowsPermuted cols₁ cols₂) rows₁ rows₂ →
      parseAtomRows cell origin cols₁ rows₁ n =
        parseAtomRows cell origin cols₂ rows₂ n) ∧
    (∀ cols₁ cols₂ : Line, cols₁.Perm cols₂ →
      hasVelocities cols₁ = hasVelocities cols₂) ∧
    parseStep atomPropsStep = parseStep atomPropsStepSorted := by
  refine ⟨?_, ?_, by decide⟩
  · intro cell origin cols₁ cols₂ rows₁ rows₂ n nd hp hall
    exact parseAtomRows_congr cell origin n nd hp hall
  · intro cols₁ cols₂ hp
    unfold hasVelocities
    rw [hasCol_eq_of_perm hp "vx", hasCol_eq_of_perm hp "vy",
      hasCol_eq_of_perm hp "vz"]

/-- Witness for C3: the general permutation statement instantiated at the
`Atom properties` reference dataset and its canonical reordering. -/
theorem claim_C3_witness :
    apCols.Nodup ∧
    parseAtomRows apCell apOrigin apCols [apRow1, apRow2] 2 =
      parseAtomRows apCell apOrigin apColsSorted [apRow1Sorted, apRow2Sorted]
        2 :=
  ⟨by decide,
    claim_C3.1 apCell apOrigin apCols apColsSorted [apRow1, apRow2]
      [apRow1Sorted, apRow2Sorted] 2 (by decide) (by decide)
      (List.Forall₂.cons ⟨by decide, by decide, by decide⟩
        (List.Forall₂.cons ⟨by decide, by decide, by decide⟩
          List.Forall₂.nil))⟩

/-- C7: a second data line with an already-used identifier aborts the step
with a format error — no silent overwrite — whose message is
`found atoms with the same ID in <format> format: <id> is already present`.
General part: if the earlier lines were placed successfully and the
offending line's slot is already occupied, the whole row parse yields
exactly that format error.  Concrete parts: the Scenario B step produces the
exact message text, which is the template filled with format name and id. -/
theorem claim_C7 :
    (∀ (cell : UnitCell) (origin : Vec3) (cols : Line)
      (rows₁ : List Line) (row : Line) (rows₂ : List Line) (n : ℕ)
      (slots : List (Option RowData)) (j : ℕ) (rd prev : RowData),
      placeRows cell origin cols rows₁ 0 (List.replicate n none) =
        Except.ok slots →
      parseRow cell origin cols row = Except.ok rd →
      slotOf cols row rows₁.length = Except.ok j →
      ∀ (hj : j < slots.length), slots.get ⟨j, hj⟩ = some prev →
      parseAtomRows cell origin cols (rows₁ ++ row :: rows₂) n =
        Except.error (ParseError.format (duplicateIdMsg (j + 1)))) ∧
    parseStep duplicateIdStep =
      Except.error (ParseError.format
        "found atoms with the same ID in LAMMPS format: 2 is already present") ∧
    duplicateIdMsg 2 =
      "found atoms with the same ID in LAMMPS format: 2 is already present" := by
  refine ⟨?_, by decide, by decide⟩
  intro cell origin cols rows₁ row rows₂ n slots j rd prev hplace hrow hslot
    hj hget
  unfold parseAtomRows
  rw [placeRows_append cell origin cols rows₁ (row :: rows₂) 0
    (List.replicate n none), hplace]
  show Except.bind (placeRows cell origin cols (row :: rows₂)
    (0 + rows₁.length) slots) _ = _
  simp only [Nat.zero_add]
  conv_lhs => rw [placeRows]
  rw [hrow]
  dsimp only
  rw [hslot]
  dsimp only
  rw [dif_pos hj, hget]
  rfl

/-- Witness for C7: the general statement instantiated at the Scenario B
data lines, where the identifier `2` is reused. -/
theorem claim_C7_witness :
    parseAtomRows dupCell (0, 0, 0) dupCols (dupRows ++ dupRow3 :: []) 3 =
      Except.error (ParseError.format (duplicateIdMsg 2)) :=
  claim_C7.1 dupCell (0, 0, 0) dupCols dupRows dupRow3 [] 3 dupSlots 1
    dupRowData3 dupRowData (by decide) (by decide) (by decide) (by decide)
    (by decide)

/-- C8: when at least one velocity column is present, the frame has a
velocity array and every axis whose column is missing is zero for every
atom.  General part: any axis among `vx vy vz` that is not declared
contributes a zero component to every parsed atom's velocity.  Concrete
part: the reference step declaring only `vy` and `vz` yields a present
velocity array whose x components are all zero. -/
theorem claim_C8 :
    (∀ (cell : UnitCell) (origin : Vec3) (cols : Line) (rows : List Line)
      (n : ℕ) (rds : List RowData),
      parseAtomRows cell origin cols rows n = Except.ok rds →
      ∀ rd ∈ rds,
        (hasCol cols "vx" = false → rd.vel.1 = 0) ∧
          (hasCol cols "vy" = false → rd.vel.2.1 = 0) ∧
          (hasCol cols "vz" = false → rd.vel.2.2 = 0)) ∧
    (parseStep atomPropsStep).map (fun p => p.1.velocities) =
      Except.ok (some [(0, 8, 9), (0, -469 / 200, 807 / 125)]) := by
  constructor
  · intro cell origin cols rows n rds h rd hrd
    obtain ⟨rds', hall, hperm⟩ :=
      parseAtomRows_ok_perm cell origin cols rows n rds h
    obtain ⟨row, _, hpr⟩ := forall₂_mem_right hall (hperm.mem_iff.mp hrd)
    obtain ⟨_, _, _, hvel⟩ := parseRow_ok_parts cell origin cols row rd hpr
    exact resolveVelocity_missing_axis cols row rd.vel hvel
  · decide

/-- Witness for C8: the general statement instantiated at the
`Atom properties` dataset, which declares `vy` and `vz` but not `vx`. -/
theorem claim_C8_witness :
    hasCol apCols "vx" = false ∧
    parseAtomRows apCell apOrigin apCols [apRow1, apRow2] 2 =
      Except.ok [apRowData1, apRowData2] ∧
    apRowData1.vel.1 = 0 ∧ apRowData2.vel.1 = 0 :=
  ⟨by decide, by decide,
    (claim_C8.1 apCell apOrigin apCols [apRow1, apRow2] 2
      [apRowData1, apRowData2] (by decide) apRowData1 (by simp)).1
      (by decide),
    (claim_C8.1 apCell apOrigin apCols [apRow1, apRow2] 2
      [apRowData1, apRowData2] (by decide) apRowData2 (by simp)).1
      (by decide)⟩

/-- C10, counterexample to the claim as stated: over a box whose origin is
not zero (`x` bounds `5..25`), a scaled coordinate `0.5 0.5 0.5` parses to
the box origin plus the cell-matrix transform, `(15, 15, 20)` — not the bare
component-wise product `(0.5·20, 0.5·30, 0.5·40) = (10, 15, 20)` of the
fractional coordinate with the cell lengths. -/
theorem claim_C10_counterexample :
    (parseStep shiftedScaledStep).map (fun p => p.1.positions) =
      Except.ok [(15, 15, 20)] ∧
    ¬ (((15 : ℚ), (15 : ℚ), (20 : ℚ)) =
      ((1 / 2 : ℚ) * 20, (1 / 2 : ℚ) * 30, (1 / 2 : ℚ) * 40)) := by
  constructor
  · decide
  · decide

/-- C10 (amended: scaled positions are the box origin plus the cell-matrix
transform of the fractional coordinate; with the box origin at zero — as in
the reference test — this is exactly the component-wise product with the
lengths for an orthorhombic cell): a step with `xs ys zs` but no image-flag
columns parses fine (missing image flags default to zero and do not
disqualify the representation), even when a higher-priority Cartesian set is
incompletely listed; and a step with atoms but no usable representation
yields `(0,0,0)` positions, not an error. -/
theorem claim_C10 :
    (∀ (cell : UnitCell) (origin : Vec3) (cols : Line) (rows : List Line)
      (n : ℕ) (rds : List RowData),
      hasTriple cols "xu" "yu" "zu" = false →
      hasTriple cols "x" "y" "z" = false →
      hasTriple cols "xsu" "ysu" "zsu" = false →
      hasTriple cols "xs" "ys" "zs" = true →
      hasCol cols "ix" = false → hasCol cols "iy" = false →
      hasCol cols "iz" = false →
      parseAtomRows cell origin cols rows n = Except.ok rds →
      (rds.map RowData.pos).Perm (rows.map (fun r =>
        origin + cell.fracToCart (colRatD cols r "xs" 0,
          colRatD cols r "ys" 0, colRatD cols r "zs" 0)))) ∧
    (∀ (cell : UnitCell) (s : Vec3), cell.xy = 0 → cell.xz = 0 →
      cell.yz = 0 →
      cell.fracToCart s = (cell.lx * s.1, cell.ly * s.2.1,
        cell.lz * s.2.2)) ∧
    (∀ (cell : UnitCell) (origin : Vec3) (cols : Line) (rows : List Line)
      (n : ℕ) (rds : List RowData),
      hasTriple cols "xu" "yu" "zu" = false →
      hasTriple cols "x" "y" "z" = false →
      hasTriple cols "xsu" "ysu" "zsu" = false →
      hasTriple cols "xs" "ys" "zs" = false →
      parseAtomRows cell origin cols rows n = Except.ok rds →
      ∀ rd ∈ rds, rd.pos = (0, 0, 0)) ∧
    (parseStep reprStep0).map (fun p => p.1.positions) =
      Except.ok [(10, 15, 20)] ∧
    (parseStep reprStep2).map (fun p => p.1.positions) =
      Except.ok [(0, 0, 0)] := by
  refine ⟨?_, ?_, ?_, by decide, by decide⟩
  · intro cell origin cols rows n rds h1 h2 h3 h4 hix hiy hiz h
    obtain ⟨rds', hall, hperm⟩ :=
      parseAtomRows_ok_perm cell origin cols rows n rds h
    have hmap : rds'.map RowData.pos = rows.map (fun r =>
        origin + cell.fracToCart (colRatD cols r "xs" 0,
          colRatD cols r "ys" 0, colRatD cols r "zs" 0)) := by
      refine map_eq_of_forall₂ hall _ _ (fun row rd hr => ?_)
      obtain ⟨_, _, hpos, _⟩ := parseRow_ok_parts cell origin cols row rd hr
      exact resolvePosition_scaled cell origin cols row rd.pos h1 h2 h3 h4
        hix hiy hiz hpos
    have := hperm.map RowData.pos
    rwa [hmap] at this
  · intro cell s hxy hxz hyz
    simp [UnitCell.fracToCart, hxy, hxz, hyz]
  · intro cell origin cols rows n rds h1 h2 h3 h4 h rd hrd
    obtain ⟨rds', hall, hperm⟩ :=
      parseAtomRows_ok_perm cell origin cols rows n rds h
    obtain ⟨row, _, hpr⟩ := forall₂_mem_right hall (hperm.mem_iff.mp hrd)
    obtain ⟨_, _, hpos, _⟩ := parseRow_ok_parts cell origin cols row rd hpr
    rw [resolvePosition_default cell origin cols row h1 h2 h3 h4] at hpos
    exact (Except.ok.inj hpos).symm

/-- Witness for C10: the amended general statement instantiated at step 0 of
the `Best position representation` test (origin zero, scaled columns, no
image flags, incomplete Cartesian set also present). -/
theorem claim_C10_witness :
    hasTriple scaledCols "xs" "ys" "zs" = true ∧
    hasTriple scaledCols "x" "y" "z" = false ∧
    parseAtomRows bigCell (0, 0, 0) scaledCols [scaledRow] 1 =
      Except.ok [scaledRowData] ∧
    (([scaledRowData].map RowData.pos).Perm
      ([scaledRow].map (fun r =>
        ((0 : ℚ), (0 : ℚ), (0 : ℚ)) + bigCell.fracToCart
          (colRatD scaledCols r "xs" 0, colRatD scaledCols r "ys" 0,
            colRatD scaledCols r "zs" 0)))) :=
  ⟨by decide, by decide, by decide,
    claim_C10.1 bigCell (0, 0, 0) scaledCols [scaledRow] 1 _
      (by decide) (by decide) (by decide) (by decide) (by decide) (by decide)
      (by decide) (by decide)⟩

/-- C2: parsing the triclinic `BOX BOUNDS` block with bounds
`(-4,6,5) / (0,20,4) / (-1,10,3.5)` yields the triclinic cell
`(lx, ly, lz, xy, xz, yz) = (10, 20, 11, 5, 4, 3.5)`, whose canonical
lengths are within `1e-3` of `(10.0, 20.616, 12.217)` and whose angles are
within `1e-3` degrees of `(69.063, 70.888, 75.964)`; and the parse does not
depend on the ordering of the tokens on the marker line — any permutation
of the flag list (in particular tilt-factor names before instead of after
the boundary flags) reads the body identically. -/
theorem claim_C2 :
    (∀ (flags₁ flags₂ : Line) (lines : List Line), flags₁.Perm flags₂ →
      readBoxBody flags₁ lines = readBoxBody flags₂ lines) ∧
    (parseStep triclinicStepA).map (fun r => r.1.cell) =
      Except.ok triclinicCell ∧
    (parseStep triclinicStepB).map (fun r => r.1.cell) =
      Except.ok triclinicCell ∧
    triclinicCell.shape = CellShape.Triclinic ∧
    triclinicCell.lengths.1 = 10 ∧
    |triclinicCell.lengths.2.1 - 20.616| < 1 / 1000 ∧
    |triclinicCell.lengths.2.2 - 12.217| < 1 / 1000 ∧
    |triclinicCell.angles.1 - 69.063| < 1 / 1000 ∧
    |triclinicCell.angles.2.1 - 70.888| < 1 / 1000 ∧
    |triclinicCell.angles.2.2 - 75.964| < 1 / 1000 :=
  ⟨fun _ _ lines h => readBoxBody_congr h lines, by decide, by decide,
    by decide, triclinic_lenA, triclinic_lenB, triclinic_lenC,
    triclinic_alpha, triclinic_beta, triclinic_gamma⟩

/-- Witness for C2: the two concrete marker-token orderings of the
reference test are a permutation of each other, so they read the triclinic
bound lines identically. -/
theorem claim_C2_witness :
    (["pp", "pp", "pp", "xy", "xz", "yz"] : Line).Perm
      ["xy", "xz", "yz", "pp", "pp", "pp"] ∧
    readBoxBody ["pp", "pp", "pp", "xy", "xz", "yz"] triclinicBounds =
      readBoxBody ["xy", "xz", "yz", "pp", "pp", "pp"] triclinicBounds :=
  ⟨by decide, claim_C2.1 ["pp", "pp", "pp", "xy", "xz", "yz"]
    ["xy", "xz", "yz", "pp", "pp", "pp"] triclinicBounds (by decide)⟩

/-- C4: `read_step` is idempotent and order-independent: on any trajectory
whose step index satisfies its invariant, an arbitrary sequence of
`read_step` requests (ascending, descending, or repeating) returns, for
each ordinal `n`, exactly the pure per-ordinal result — so every repeat of
an ordinal yields the identical frame.  Concretely, on the two-step
reference file, reading steps `1, 0, 0, 1` returns the step-1 frame, the
step-0 frame twice, and the step-1 frame again, and the step-0 frame is the
same one a fresh first read returns. -/
theorem claim_C4 :
    (∀ (t : Trajectory) (ns : List ℕ), CacheOK t →
      runReads t ns = ns.map (readStepPureT t.lines t.override)) ∧
    runReads (Trajectory.openFile twoStepFile) [1, 0, 0, 1] =
      [Except.ok twoStepFrame1, Except.ok twoStepFrame0,
       Except.ok twoStepFrame0, Except.ok twoStepFrame1] ∧
    runReads (Trajectory.openFile twoStepFile) [0] =
      [Except.ok twoStepFrame0] :=
  ⟨fun t ns h => runReads_spec ns t h, by decide, by decide⟩

/-- Witness for C4: the general statement instantiated on the freshly
opened two-step reference file and the request list `[1, 0]`. -/
theorem claim_C4_witness :
    CacheOK (Trajectory.openFile twoStepFile) ∧
    runReads (Trajectory.openFile twoStepFile) [1, 0] =
      [1, 0].map (readStepPureT twoStepFile none) :=
  ⟨rfl, claim_C4.1 (Trajectory.openFile twoStepFile) [1, 0] rfl⟩

/-- C5: a `read_step` request at or beyond `nsteps` yields the file-level
out-of-range error and never a frame, and a sequential `read` past the last
step yields the same file-level error; concretely, on the two-step
reference file, `read_step 2` errors and the third sequential `read`
errors. -/
theorem claim_C5 :
    (∀ (t : Trajectory) (n : ℕ), CacheOK t → (t.nsteps).1 ≤ n →
      (t.readStep n).1 = Except.error (ParseError.file rangeMsg)) ∧
    (∀ (t : Trajectory), CacheOK t → (t.nsteps).1 ≤ t.cursor →
      (t.read).1 = Except.error (ParseError.file rangeMsg)) ∧
    ((Trajectory.openFile twoStepFile).readStep 2).1 =
      Except.error (ParseError.file rangeMsg) ∧
    ((((Trajectory.openFile twoStepFile).read).2.read).2.read).1 =
      Except.error (ParseError.file rangeMsg) := by
  have hmain : ∀ (t : Trajectory) (n : ℕ), CacheOK t → (t.nsteps).1 ≤ n →
      (t.readStep n).1 = Except.error (ParseError.file rangeMsg) := by
    intro t n h hn
    refine readStep_out_of_range t n h ?_
    rw [← nsteps_fst t h]
    exact hn
  refine ⟨hmain, ?_, by decide, by decide⟩
  intro t h hc
  have hfst := hmain t t.cursor h hc
  unfold Trajectory.read
  cases hr : t.readStep t.cursor with
  | mk res t' =>
    rw [hr] at hfst
    dsimp only at hfst
    rw [hfst]

/-- Witness for C5: the out-of-range statement instantiated at ordinal `5`
of the freshly opened two-step reference file. -/
theorem claim_C5_witness :
    CacheOK (Trajectory.openFile twoStepFile) ∧
    ((Trajectory.openFile twoStepFile).nsteps).1 ≤ 5 ∧
    ((Trajectory.openFile twoStepFile).readStep 5).1 =
      Except.error (ParseError.file rangeMsg) :=
  ⟨rfl, by decide, claim_C5.1 (Trajectory.openFile twoStepFile) 5 rfl
    (by decide)⟩

/-- C6: the optional `UNITS` and `TIME` headers are never inherited across
steps in either direction: the frame parsed from one step carries a
`lammps_units` (resp. `time`) property only if the lines consumed by that
very step — the prefix `pre` of the input the parse leaves `rest` of —
contain the corresponding marker; what any earlier step (not part of the
suffix) or later step (inside `rest`) defines is irrelevant.  Concretely,
in the reference file whose step 0 declares `UNITS metal` and whose step 1
declares `TIME`, step 0 lacks `time` (although the later step defines it)
and step 1 lacks `lammps_units` (although the earlier step defined it),
while each step carries its own declared property. -/
theorem claim_C6 :
    (∀ (pre rest : List Line) (f : Frame),
      parseStep (pre ++ rest) = Except.ok (f, rest) →
      ((∀ l ∈ pre, itemKind? l ≠ some ItemKind.units) →
        f.get? "lammps_units" = none) ∧
      ((∀ l ∈ pre, itemKind? l ≠ some ItemKind.time) →
        f.get? "time" = none)) ∧
    (readStepPure unitsFile 0).map (fun f => f.get? "lammps_units") =
      Except.ok (some (Property.str "metal")) ∧
    (readStepPure unitsFile 0).map (fun f => f.get? "time") =
      Except.ok none ∧
    (readStepPure unitsFile 1).map (fun f => f.get? "time") =
      Except.ok (some (Property.double (167839 / 500))) ∧
    (readStepPure unitsFile 1).map (fun f => f.get? "lammps_units") =
      Except.ok none := by
  refine ⟨?_, by decide, by decide, by decide, by decide⟩
  intro pre rest f hp
  obtain ⟨pre', heq, hpos, hu, ht⟩ := parseStep_split (pre ++ rest) f rest hp
  have hpre : pre = pre' := List.append_cancel_right heq
  subst hpre
  constructor
  · intro hnone
    rcases hu with h | ⟨l, hl, hm⟩
    · exact h
    · exact absurd hm (hnone l hl)
  · intro hnone
    rcases ht with h | ⟨l, hl, hm⟩
    · exact h
    · exact absurd hm (hnone l hl)

/-- Witness for C6: the general statement instantiated at step 0 of the
reference file, whose own block has no `TIME` marker while the following
step (the `rest` of the parse) does define one: the property is absent
anyway. -/
theorem claim_C6_witness :
    parseStep (unitsStep ++ noUnitsStep) =
      Except.ok (unitsFrame, noUnitsStep) ∧
    (∀ l ∈ unitsStep, itemKind? l ≠ some ItemKind.time) ∧
    (∃ l ∈ noUnitsStep, itemKind? l = some ItemKind.time) ∧
    unitsFrame.get? "time" = none :=
  ⟨by decide, by decide, by decide,
    (claim_C6.1 unitsStep noUnitsStep unitsFrame (by decide)).2 (by decide)⟩

/-- C9: with a size-matching topology override attached, every frame
returned by `read_step` is the pure per-step frame with only its topology
replaced by the override — positions, velocities, cell, step number and
per-frame properties still come from the step record.  Concretely,
attaching the one-atom `Fe` topology to the two-step reference file makes
`read_step 0` return the step-0 frame with the `Fe` topology. -/
theorem claim_C9 :
    (∀ (t : Trajectory) (n : ℕ) (T : Topology) (f : Frame), CacheOK t →
      t.override = some T →
      readStepPure t.lines n = Except.ok f →
      T.size = f.size →
      (t.readStep n).1 = Except.ok { f with topology := T }) ∧
    (((Trajectory.openFile twoStepFile).setTopology feTopology).readStep
        0).1 = Except.ok { twoStepFrame0 with topology := feTopology } := by
  refine ⟨?_, by decide⟩
  intro t n T f h hov hpure hsize
  have h1 := (readStep_spec t n h).1
  rw [h1]
  unfold readStepPureT
  rw [hpure, hov]
  show mergeTopology (some T) f = Except.ok { f with topology := T }
  unfold mergeTopology
  dsimp only
  rw [hsize]
  simp

/-- Witness for C9: the general statement instantiated at the two-step
reference file with the `Fe` override attached. -/
theorem claim_C9_witness :
    CacheOK ((Trajectory.openFile twoStepFile).setTopology feTopology) ∧
    ((Trajectory.openFile twoStepFile).setTopology feTopology).override =
      some feTopology ∧
    readStepPure twoStepFile 0 = Except.ok twoStepFrame0 ∧
    feTopology.size = twoStepFrame0.size ∧
    (((Trajectory.openFile twoStepFile).setTopology feTopology).readStep
        0).1 = Except.ok { twoStepFrame0 with topology := feTopology } :=
  ⟨rfl, rfl, by decide, by decide,
    claim_C9.1 ((Trajectory.openFile twoStepFile).setTopology feTopology)
      0 feTopology twoStepFrame0 rfl rfl (by decide) (by decide)⟩

end Chemfiles
